import Mathlib

/-!
# lookatch-agent: Kafka sink pipeline and control dispatch

A shallow embedding of `sinks/kafka.go` (consumer-side record construction,
the batching producer loop, the retrying `sendMsg`), of `core/agent_ctrl.go`
(`DispatchSource`) and of `config.go` (`initializeConfig`), with the
properties checked against the natural-language specification.

Conventions.
* Go `int` values are `Int`. Byte counts are lengths of in-memory slices, so
  the additions of the source cannot wrap around and no modulus is applied.
* Go byte slices are `List UInt8`. Go strings that are only concatenated or
  compared (topics, names, secrets) are `String`.
* External behaviour (the broker client, the wall clock, `json.Marshal`, the
  encryption helpers, the source implementations, viper, the uuid package,
  the operating system) is a parameter of the definitions, so every theorem
  holds for all such behaviours.
-/

set_option maxRecDepth 20000

namespace Lookatch

/-! ## sarama records -/

/-- A value of the `sarama.Encoder` interface, identified with the bytes it encodes to;
both `sarama.StringEncoder` and `sarama.ByteEncoder` are of this form. -/
structure Encoder where
  bytes : List UInt8
deriving DecidableEq, Repr

/-- The method `Length()` of `sarama.StringEncoder` and `sarama.ByteEncoder`: `len` of the data. -/
def Encoder.Length (e : Encoder) : Int := e.bytes.length

/-- The conversion `sarama.ByteEncoder(b)`. -/
def ByteEncoder (b : List UInt8) : Encoder := ⟨b⟩

/-- The conversion `sarama.StringEncoder(s)` of a Go string, given by its bytes. -/
def StringEncoder (s : List UInt8) : Encoder := ⟨s⟩

/-- The conversion `[]byte(s)` of a Go string held as a `String`. -/
def goBytes (s : String) : List UInt8 := s.toUTF8.data.toList

/-- The record `sarama.RecordHeader`. -/
structure RecordHeader where
  Key : List UInt8
  Value : List UInt8
deriving DecidableEq, Repr

/-- The fields of `sarama.ProducerMessage` that the sink reads or writes. `Key` and `Value`
are interface values and may be nil (`none`). -/
structure ProducerMessage where
  Topic : String
  Key : Option Encoder
  Value : Option Encoder
  Headers : List RecordHeader
deriving DecidableEq, Repr

/-- The constant `binary.MaxVarintLen32`. -/
def MaxVarintLen32 : Int := 5

/-- The function `msgByteSize` of `sinks/kafka.go`. -/
def msgByteSize (msg : ProducerMessage) : Int :=
  -- the metadata overhead of CRC, flags, etc.
  let size : Int := 26
  let size := msg.Headers.foldl
    (fun size h => size + (h.Key.length + h.Value.length + 2 * MaxVarintLen32)) size
  let size := match msg.Key with
    | some k => size + k.Length
    | none => size
  let size := match msg.Value with
    | some v => size + v.Length
    | none => size
  size

/-- The struct `kafkaSinkConfig` (the fields read by the functions embedded here). -/
structure kafkaSinkConfig where
  Topic : String
  Topic_prefix : String
  MaxMessageBytes : Int
  NbProducer : Int
  Secret : String
deriving DecidableEq, Repr

/-! ## The broker client and the clock -/

/-- One entry of `sarama.ProducerErrors`. -/
structure ProducerError where
  Msg : ProducerMessage
  Err : String
deriving DecidableEq, Repr

/-- The environment of a producer goroutine, over a state `W` of the outside world:
`SendMessages` is `producer.SendMessages(msgs)`, answering `none` for a nil error and
`some errs` for a `sarama.ProducerErrors` value; `unixNow` is `time.Now().Unix()`. -/
structure Runtime (W : Type) where
  SendMessages : List ProducerMessage → W → Option (List ProducerError) × W
  unixNow : W → Int × W

/-- How a call of `sendMsg` ends: it returns a timestamp, or it reaches `log.Panic`
("Failed to push event to kafka. Stopping agent.") with the logged `nbRetry`. -/
inductive SendOutcome where
  | returned (lastSend : Int)
  | panic (nbRetry : Nat)
deriving DecidableEq, Repr

/-- The loop `for err != nil { ... }` of `sendMsg`, entered with the current `retries` and
the error of the latest `SendMessages` call. -/
def sendMsgRetry {W : Type} (rt : Runtime W) (retries : Nat) (err : Option (List ProducerError))
    (w : W) : SendOutcome × W :=
  match err with
  | none =>
    let r := rt.unixNow w
    (SendOutcome.returned r.1, r.2)
  | some producerErrs =>
    let msgs := producerErrs.map ProducerError.Msg
    if retries > 20 then
      (SendOutcome.panic retries, w)
    else
      let r := rt.SendMessages msgs w
      sendMsgRetry rt (retries + 1) r.1 r.2
termination_by 21 - retries
decreasing_by omega

/-- The function `sendMsg` of `sinks/kafka.go`. -/
def sendMsg {W : Type} (rt : Runtime W) (msgs : List ProducerMessage) (w : W) : SendOutcome × W :=
  let r := rt.SendMessages msgs w
  sendMsgRetry rt 0 r.1 r.2

/-! ## The producer loop of `startProducer` -/

/-- Where a producer goroutine stands: inside `ProducerLoop`, past `break ProducerLoop`,
or ended by a panic. -/
inductive Status where
  | running
  | stopped
  | panicked
deriving DecidableEq, Repr

/-- The state of a producer goroutine: the loop variables `msgs`, `msgsSize`, `lastSend`
of `startProducer`, the outside world, and the trace `sent` of the batches handed to
`sendMsg` so far (oldest first). -/
structure Fiber (W : Type) where
  msgs : List ProducerMessage
  msgsSize : Int
  lastSend : Int
  sent : List (List ProducerMessage)
  world : W
  status : Status

/-- The statement `lastSend = sendMsg(msgs, producer)` together with the two assignments
`msgs = ...` and `msgsSize = ...` that follow it at each of its three call sites; the
assignments are reached only when `sendMsg` returns. -/
def callSendMsg {W : Type} (rt : Runtime W) (f : Fiber W) (msgs : List ProducerMessage)
    (msgsSize : Int) : Fiber W :=
  match sendMsg rt f.msgs f.world with
  | (SendOutcome.returned t, w) =>
    { msgs := msgs, msgsSize := msgsSize, lastSend := t, sent := f.sent ++ [f.msgs],
      world := w, status := f.status }
  | (SendOutcome.panic _, w) =>
    { f with sent := f.sent ++ [f.msgs], world := w, status := Status.panicked }

/-- The size check of the loop body (`msgSize = msgByteSize(msg)` and the `if` chain on it). -/
def sizeCheck {W : Type} (rt : Runtime W) (conf : kafkaSinkConfig) (f : Fiber W)
    (msg : ProducerMessage) : Fiber W :=
  let msgSize := msgByteSize msg
  if msgSize > conf.MaxMessageBytes then
    f
  else if f.msgsSize + msgSize < conf.MaxMessageBytes then
    { f with msgs := f.msgs ++ [msg], msgsSize := f.msgsSize + msgSize }
  else
    callSendMsg rt f [msg] msgSize

/-- The time check of the loop body (`timepass = time.Now().Unix() - lastSend` and the
`if timepass >= 1`); nothing is executed once the goroutine has panicked. -/
def tickCheck {W : Type} (rt : Runtime W) (f : Fiber W) : Fiber W :=
  match f.status with
  | Status.running =>
    let r := rt.unixNow f.world
    let f := { f with world := r.2 }
    let timepass := r.1 - f.lastSend
    if timepass ≥ 1 then
      callSendMsg rt f [] 0
    else
      f
  | _ => f

/-- The body of `case msg = <-in:`. A nil `msg.Value` makes `msg.Value.Length()` panic. -/
def onMessage {W : Type} (rt : Runtime W) (conf : kafkaSinkConfig) (f : Fiber W)
    (msg : ProducerMessage) : Fiber W :=
  match msg.Value with
  | none => { f with status := Status.panicked }
  | some value =>
    if value.Length = 0 then
      if f.msgs.length ≥ 1 then
        callSendMsg rt f [] 0
      else
        f
    else
      tickCheck rt (sizeCheck rt conf f msg)

/-- What one `select` of the loop receives: a message from `in`, or a value from `stop`. -/
inductive Signal where
  | recv (msg : ProducerMessage)
  | stop
deriving DecidableEq, Repr

/-- One iteration of `ProducerLoop`. `case <-stop:` is `break ProducerLoop`; a goroutine
that has left the loop or panicked receives nothing more. -/
def loopStep {W : Type} (rt : Runtime W) (conf : kafkaSinkConfig) (f : Fiber W)
    (s : Signal) : Fiber W :=
  match f.status with
  | Status.running =>
    match s with
    | Signal.recv msg => onMessage rt conf f msg
    | Signal.stop => { f with status := Status.stopped }
  | _ => f

/-- The loop `ProducerLoop` run over the signals it receives, in order. -/
def producerLoop {W : Type} (rt : Runtime W) (conf : kafkaSinkConfig) (f : Fiber W)
    (signals : List Signal) : Fiber W :=
  signals.foldl (loopStep rt conf) f

/-- The variables at the entry of `ProducerLoop`: `lastSend = time.Now().Unix()`, an empty
batch. -/
def initFiber {W : Type} (rt : Runtime W) (w : W) : Fiber W :=
  let r := rt.unixNow w
  { msgs := [], msgsSize := 0, lastSend := r.1, sent := [], world := r.2,
    status := Status.running }

/-- The function `startProducer` from `lastSend = time.Now().Unix()` on, over the signals
received. The set-up of the broker client before the loop and the deferred
`producer.Close()` after it hand no record to the broker and are left out. -/
def startProducer {W : Type} (rt : Runtime W) (conf : kafkaSinkConfig) (w : W)
    (signals : List Signal) : Fiber W :=
  producerLoop rt conf (initFiber rt w) signals

/-- The wire size of a batch: the sum of `msgByteSize` over its records. -/
def batchBytes (batch : List ProducerMessage) : Int :=
  (batch.map msgByteSize).sum

/-! ## The consumer side of the sink -/

/-- The builtin `len` on a Go string held as a `String`: its number of bytes. -/
def goLen (s : String) : Int := s.utf8ByteSize

/-- The fields of `events.SqlEvent` that the sink reads; `Statement` stands for the rest
of the event, which only `json.Marshal` looks at. -/
structure SqlEvent where
  Environment : String
  Database : String
  Table : String
  PrimaryKey : String
  Statement : String
deriving DecidableEq, Repr

/-- The fields of `events.GenericEvent` that the sink reads; `Value` stands for the rest. -/
structure GenericEvent where
  Environment : String
  Value : String
deriving DecidableEq, Repr

/-- The fields of `sarama.ConsumerMessage` that the sink reads. -/
structure ConsumerMessage where
  Topic : String
  Key : List UInt8
  Value : List UInt8
deriving DecidableEq, Repr

/-- The library calls of the consumer side, each answering the pair the Go call returns
(`none` for a nil error): `json.Marshal` on either event type, `util.EncryptBytes` and
`util.EncryptString`. Encryption draws a fresh nonce, so it also takes the randomness `R`
drawn by the call. The string argument and result of `EncryptString` are given by their
bytes. -/
structure Codec (R : Type) where
  MarshalSql : SqlEvent → List UInt8 × Option String
  MarshalGeneric : GenericEvent → List UInt8 × Option String
  EncryptBytes : R → List UInt8 → String → List UInt8 × Option String
  EncryptString : R → List UInt8 → String → List UInt8 × Option String

/-- The function `processGenericEvent` of `sinks/kafka.go`. The errors of `json.Marshal`
and of `util.EncryptBytes` are logged and nothing else is done with them. -/
def processGenericEvent {R : Type} (c : Codec R) (r : R) (genericMsg : GenericEvent)
    (conf : kafkaSinkConfig) (threshold : Int) : Except String ProducerMessage :=
  let topic :=
    if goLen conf.Topic = 0 then
      kafkaSinkConfig.Topic_prefix conf ++ genericMsg.Environment
    else
      conf.Topic
  let serializedEventPayload := (c.MarshalGeneric genericMsg).1
  let msgToSend :=
    if goLen conf.Secret > 0 then
      (c.EncryptBytes r serializedEventPayload conf.Secret).1
    else
      serializedEventPayload
  -- if message is heavier than threshold we must skip it
  if (msgToSend.length : Int) > threshold then
    Except.error "KafkaSink: Skip too heavy event : "
  else
    Except.ok { Topic := topic, Key := some (ByteEncoder (goBytes genericMsg.Environment)),
                Value := some (StringEncoder msgToSend), Headers := [] }

/-- The function `processSQLEvent` of `sinks/kafka.go`. The errors of `json.Marshal` and of
`util.EncryptString` are logged and nothing else is done with them. -/
def processSQLEvent {R : Type} (c : Codec R) (r : R) (sqlEvent : SqlEvent)
    (conf : kafkaSinkConfig) (threshold : Int) : Except String ProducerMessage :=
  let topic :=
    if goLen conf.Topic = 0 then
      kafkaSinkConfig.Topic_prefix conf ++ sqlEvent.Environment ++ "_" ++ sqlEvent.Database
    else
      conf.Topic
  let key := sqlEvent.PrimaryKey
  let serializedEventPayload := (c.MarshalSql sqlEvent).1
  let serializedEventPayload :=
    if goLen conf.Secret > 0 then
      (c.EncryptString r serializedEventPayload conf.Secret).1
    else
      serializedEventPayload
  -- if message is heavier than threshold we must skip it
  if (serializedEventPayload.length : Int) > threshold then
    Except.error "KafkaSink: Skip too heavy event"
  else
    Except.ok { Topic := topic, Key := some (StringEncoder (goBytes key)),
                Value := some (StringEncoder serializedEventPayload), Headers := [] }

/-- The function `processKafkaMsg` of `sinks/kafka.go`. The error of `util.EncryptBytes` is
logged and nothing else is done with it. -/
def processKafkaMsg {R : Type} (c : Codec R) (r : R) (kafkaMsg : ConsumerMessage)
    (conf : kafkaSinkConfig) (threshold : Int) : Except String ProducerMessage :=
  let topic :=
    if goLen conf.Topic = 0 then
      kafkaSinkConfig.Topic_prefix conf ++ kafkaMsg.Topic
    else
      conf.Topic
  let msgToSend :=
    if conf.Secret ≠ "" then
      (c.EncryptBytes r kafkaMsg.Value conf.Secret).1
    else
      kafkaMsg.Value
  -- if message is heavier than threshold we must skip it
  if (msgToSend.length : Int) > threshold then
    Except.error "KafkaSink: Skip too heavy event"
  else
    Except.ok { Topic := topic, Key := some (ByteEncoder kafkaMsg.Key),
                Value := some (StringEncoder msgToSend), Headers := [] }

/-- The dynamic type of `eventMsg.Payload` in `startConsumer`. -/
inductive Payload where
  | sql (typedMsg : SqlEvent)
  | generic (typedMsg : GenericEvent)
  | kafka (typedMsg : ConsumerMessage)
  | unknown
deriving DecidableEq, Repr

/-- The tail shared by the cases of the type switch in `startConsumer`:
`if err != nil { break }` and then `kafkaChan <- producerMsg`; the value is the message
put on `kafkaChan`, if any. -/
def forward (res : Except String ProducerMessage) : Option ProducerMessage :=
  match res with
  | Except.error _ => none
  | Except.ok producerMsg => some producerMsg

/-- One iteration of the loop of `startConsumer`: the message put on `kafkaChan` for the
event received, if any. -/
def startConsumer {R : Type} (c : Codec R) (r : R) (conf : kafkaSinkConfig) (threshold : Int)
    (payload : Payload) : Option ProducerMessage :=
  match payload with
  | Payload.sql typedMsg => forward (processSQLEvent c r typedMsg conf threshold)
  | Payload.generic typedMsg => forward (processGenericEvent c r typedMsg conf threshold)
  | Payload.kafka typedMsg => forward (processKafkaMsg c r typedMsg conf threshold)
  | Payload.unknown => none

/-! ## Control dispatch (`core/agent_ctrl.go`) -/

/-- The struct `rpc.Message`; `MsgType` is its field `Type`. -/
structure RpcMessage where
  MsgType : String
  Payload : List UInt8
deriving DecidableEq, Repr

/-- The struct `control.Source`. -/
structure ControlSource where
  Token : String
  Name : String
  Action : String
  Payload : List UInt8
deriving DecidableEq, Repr

/-- The action constants of package `control` that the switch of `DispatchSource` names.
Go rejects a switch with two equal constant cases, hence `distinct`. -/
structure ControlConsts where
  SourceStart : String
  SourceStop : String
  SourceRestart : String
  SourceAvailableAction : String
  distinct : [SourceStart, SourceStop, SourceRestart, SourceAvailableAction].Nodup

/-- The methods of a source that `DispatchSource` reaches, over the state `σ` of a source;
`D` is the type of the action descriptors. `Start` and `Stop` answer the error they
return (`none` for nil). -/
structure SourceI (σ D : Type) where
  Start : σ → σ × Option String
  Stop : σ → σ × Option String
  Process : σ → String → List UInt8 → σ
  GetAvailableActions : σ → σ × D

/-- A method of a source, as invoked. -/
inductive SourceOp where
  | Start
  | Stop
  | Process (action : String) (payload : List UInt8)
  | GetAvailableActions
deriving DecidableEq, Repr

/-- One invocation of a method of the source registered as `name`, with the error it
returned. -/
structure Invocation where
  name : String
  op : SourceOp
  err : Option String
deriving DecidableEq, Repr

/-- A message handed to `SendEncapsMessage`. -/
structure Outgoing (D : Type) where
  Token : String
  Name : String
  Action : String
  Payload : D

/-- The agent as `DispatchSource` sees it: the registered sources by name, the trace of
the invocations made on sources so far (oldest first), and the messages handed to
`SendEncapsMessage` so far. -/
structure Agent (σ D : Type) where
  sources : String → Option σ
  invoked : List Invocation
  outbox : List (Outgoing D)

/-- Modelled from the spec: `Agent.getSource` is defined in a file of `core` that is not
among the sources; the specification has the dispatcher "look up source by `name`; if
absent, log and drop", so it is the lookup in the registry. -/
def getSource {σ D : Type} (a : Agent σ D) (sourceName : String) : Option σ :=
  a.sources sourceName

/-- The effect on the agent of one method call on the source `sourceName`: the source is
left in state `s`, and the call is appended to the trace. -/
def Agent.called {σ D : Type} (a : Agent σ D) (sourceName : String) (s : σ) (op : SourceOp)
    (err : Option String) : Agent σ D :=
  { a with
    sources := fun n => if n = sourceName then some s else a.sources n
    invoked := a.invoked ++ [{ name := sourceName, op := op, err := err }] }

/-- The method `Agent.GetSourceAvailableAction`, for a registered source in state `s`. -/
def GetSourceAvailableAction {σ D : Type} (k : ControlConsts) (impl : SourceI σ D)
    (a : Agent σ D) (s : σ) (sourceName : String) (srcCtrl : ControlSource) : Agent σ D :=
  let r := impl.GetAvailableActions s
  let a := a.called sourceName r.1 SourceOp.GetAvailableActions none
  { a with outbox := a.outbox ++ [{ Token := srcCtrl.Token, Name := srcCtrl.Name,
                                     Action := k.SourceAvailableAction, Payload := r.2 }] }

/-- The method `Agent.DispatchSource`; `unmarshal` is `json.Unmarshal` into a
`control.Source`. -/
def DispatchSource {σ D : Type} (k : ControlConsts) (impl : SourceI σ D)
    (unmarshal : List UInt8 → Except String ControlSource) (a : Agent σ D)
    (payload : RpcMessage) (sourceName : String) : Agent σ D :=
  match getSource a sourceName with
  | none => a
  | some s =>
    -- We only get source requests, no need to check type
    match unmarshal payload.Payload with
    | Except.error _ => a
    | Except.ok srcCtrl =>
      if srcCtrl.Action = k.SourceStart then
        let r := impl.Start s
        a.called sourceName r.1 SourceOp.Start r.2
      else if srcCtrl.Action = k.SourceStop then
        let r := impl.Stop s
        a.called sourceName r.1 SourceOp.Stop r.2
      else if srcCtrl.Action = k.SourceRestart then
        let r1 := impl.Stop s
        let a := a.called sourceName r1.1 SourceOp.Stop r1.2
        let r2 := impl.Start r1.1
        a.called sourceName r2.1 SourceOp.Start r2.2
      else if srcCtrl.Action = k.SourceAvailableAction then
        GetSourceAvailableAction k impl a s sourceName srcCtrl
      else
        a.called sourceName (impl.Process s srcCtrl.Action srcCtrl.Payload)
          (SourceOp.Process srcCtrl.Action srcCtrl.Payload) none

/-! ## Start-up configuration (`config.go`) -/

/-- A value held in the map `m` of `initializeConfig`, of Go type `interface{}`: a string,
a `uuid.UUID`, or a value of another type. -/
inductive ConfigValue (U : Type) where
  | str (s : String)
  | uuid (u : U)
  | other
deriving DecidableEq, Repr

/-- The map `m` of `initializeConfig`, of Go type `map[string]interface{}`. -/
abbrev AgentMap (U : Type) := String → Option (ConfigValue U)

/-- The assignment `m[key] = value`. -/
def AgentMap.set {U : Type} (m : AgentMap U) (key : String) (value : ConfigValue U) :
    AgentMap U :=
  fun k => if k = key then some value else m k

/-- The error of `v.ReadInConfig()`, by whether it is a `viper.ConfigParseError`. -/
inductive ReadError where
  | ConfigParseError (text : String)
  | other (text : String)
deriving DecidableEq, Repr

/-- Where the configuration is looked for: `v.SetConfigFile(cfgFile)` or
`v.AddConfigPath(...)`. -/
inductive ConfigSource where
  | SetConfigFile (cfgFile : String)
  | AddConfigPath (path : String)
deriving DecidableEq, Repr

/-- The libraries and the system under `initializeConfig`, over the type `V` of a viper
configuration, the type `U` of `uuid.UUID` and the randomness `R` drawn by `uuid.NewV4`.
* `ReadInConfig src` is `viper.New()` with `SetEnvPrefix("OVH_DC")`, `AutomaticEnv()`, the
  source `src` and `v.ReadInConfig()`: the configuration and the error, `none` for nil.
* `GetStringMap` and `Set` are the methods of `*viper.Viper`.
* `written v key m` is the configuration `v` once the map obtained from
  `v.GetStringMap(key)` has been assigned to and holds `m`: `v` itself where viper handed
  out a copy, `v` with the section changed where the map shares storage with it.
* `Getenv` is `os.Getenv` (the empty string for an unset variable), `Hostname` is
  `os.Hostname()`.
* `FromString` is `uuid.FromString`, answering `none` for an error. -/
structure ConfigLib (V U R : Type) where
  ReadInConfig : ConfigSource → V × Option ReadError
  GetStringMap : V → String → AgentMap U
  Set : V → String → AgentMap U → V
  written : V → String → AgentMap U → V
  Getenv : String → String
  Hostname : Except String String
  FromString : String → Option U
  NewV4 : R → U

/-- How a call of `initializeConfig` ends: it returns `v` and an error, it returns `v` and
a nil error, or the type assertion `u1.(string)` panics. -/
inductive InitOutcome (V : Type) where
  | failed (v : V) (err : String)
  | ok (v : V)
  | panic

/-- The environment override `if x := os.Getenv(name); x != "" { m[key] = x }`. -/
def overrideFromEnv {V U R : Type} (lib : ConfigLib V U R) (m : AgentMap U)
    (name key : String) : AgentMap U :=
  if lib.Getenv name ≠ "" then m.set key (ConfigValue.str (lib.Getenv name)) else m

/-- The choice between `v.SetConfigFile(cfgFile)` and `v.AddConfigPath(...)` at the head of
`initializeConfig`. -/
def configSource (cfgFile cfgPath : String) : ConfigSource :=
  if cfgFile ≠ "" then
    ConfigSource.SetConfigFile cfgFile
  else if cfgPath = "" then
    ConfigSource.AddConfigPath "."
  else
    ConfigSource.AddConfigPath cfgPath

/-- The end of `initializeConfig`, from `u1, ok := m["uuid"]` on: the early `return v, nil`
when the entry is a string that `uuid.FromString` parses, else `m["uuid"] = uuid.NewV4()`,
`v.Set("agent", m)` and `return v, nil`. The type assertion `u1.(string)` panics on an entry
that is not a string. The early return hands back the configuration without a call of
`v.Set`: it is `v` as the assignments to `m` left it. -/
def assignUuid {V U R : Type} (lib : ConfigLib V U R) (v : V) (m : AgentMap U) (r : R) :
    InitOutcome V :=
  let generated :=
    let m := m.set "uuid" (ConfigValue.uuid (lib.NewV4 r))
    InitOutcome.ok (lib.Set (lib.written v "agent" m) "agent" m)
  match m "uuid" with
  | some (ConfigValue.str u1) =>
    match lib.FromString u1 with
    | some _ => InitOutcome.ok (lib.written v "agent" m)
    | none => generated
  | some _ => InitOutcome.panic
  | none => generated

/-- The map `m` of `initializeConfig` after the four overrides from the environment:
`m := v.GetStringMap("agent")` and the assignments under `TENANT`, `UUID`, `ENV` and
`SECRETKEY`. -/
def envOverrides {V U R : Type} (lib : ConfigLib V U R) (v : V) : AgentMap U :=
  let m := lib.GetStringMap v "agent"
  -- get config from Environnement
  let m := overrideFromEnv lib m "TENANT" "tenant"
  let m := overrideFromEnv lib m "UUID" "uuid"
  let m := overrideFromEnv lib m "ENV" "env"
  overrideFromEnv lib m "SECRETKEY" "secretkey"

/-- The function `initializeConfig` of `config.go`, for the package variables `cfgFile` and
`cfgPath`. -/
def initializeConfig {V U R : Type} (lib : ConfigLib V U R) (cfgFile cfgPath : String)
    (r : R) : InitOutcome V :=
  let read := lib.ReadInConfig (configSource cfgFile cfgPath)
  let v := read.1
  match read.2 with
  | some (ReadError.other text) =>
    InitOutcome.failed v ("Unable to parse Config file : " ++ text)
  | _ =>
    let m := envOverrides lib v
    match lib.Hostname with
    | Except.error text =>
      InitOutcome.failed (lib.written v "agent" m) ("Unable to get hostname : " ++ text)
    | Except.ok hostname =>
      let m := m.set "hostname" (ConfigValue.str hostname)
      assignUuid lib v m r

/-! ## Predicates used in the statements -/

/-- A batch within the limit of the configuration: every record is, and so is the sum. -/
def withinLimit (conf : kafkaSinkConfig) (batch : List ProducerMessage) : Prop :=
  (∀ r ∈ batch, msgByteSize r ≤ conf.MaxMessageBytes) ∧ batchBytes batch ≤ conf.MaxMessageBytes

/-- The invariant of `ProducerLoop`: the pending records are within the limit one by one,
`msgsSize` is their wire size and is within the limit, and every batch handed to `sendMsg`
was within the limit. -/
def FiberInv {W : Type} (conf : kafkaSinkConfig) (f : Fiber W) : Prop :=
  (∀ r ∈ f.msgs, msgByteSize r ≤ conf.MaxMessageBytes) ∧ batchBytes f.msgs = f.msgsSize ∧
    f.msgsSize ≤ conf.MaxMessageBytes ∧ ∀ batch ∈ f.sent, withinLimit conf batch

/-- The records a producer goroutine has taken in: those of the batches handed to
`sendMsg`, in order, followed by the pending ones. -/
def accepted {W : Type} (f : Fiber W) : List ProducerMessage := f.sent.flatten ++ f.msgs

/-- The encoded value in the words of the specification: the serialized bytes, encrypted
when the secret is non-empty. -/
def encodedValue (secret : String) (serialized : List UInt8)
    (encrypt : List UInt8 → String → List UInt8 × Option String) : List UInt8 :=
  if secret = "" then serialized else (encrypt serialized secret).1

/-- The topic in the words of the specification: the configured topic verbatim when it is
non-empty, else the prefix followed by the part derived from the event. -/
def derivedTopic (conf : kafkaSinkConfig) (suffix : String) : String :=
  if conf.Topic = "" then kafkaSinkConfig.Topic_prefix conf ++ suffix else conf.Topic

/-- Whether a call returned an error and no record. -/
def isDropped (res : Except String ProducerMessage) : Prop :=
  ∃ e, res = Except.error e

/-- The size gate in the words of the specification, for the result `res` of a process
function, what the consumer then puts on the resend channel, and the encoded value: an
error and no record, and nothing forwarded, exactly when the encoded length is strictly
greater than the threshold; otherwise a record whose value is the encoded bytes, forwarded. -/
def SizeGate (res : Except String ProducerMessage) (forwarded : Option ProducerMessage)
    (encoded : List UInt8) (threshold : Int) : Prop :=
  (isDropped res ↔ threshold < (encoded.length : Int)) ∧
    (forwarded = none ↔ threshold < (encoded.length : Int)) ∧
    (¬ threshold < (encoded.length : Int) →
      ∃ record, res = Except.ok record ∧ forwarded = some record ∧
        record.Value = some (StringEncoder encoded))

/-- The candidate uuid in the words of the specification: the environment variable `UUID`
when it is non-empty, the configured `agent.uuid` otherwise. -/
def candidateUuid {V U R : Type} (lib : ConfigLib V U R) (v : V) : Option (ConfigValue U) :=
  if lib.Getenv "UUID" ≠ "" then some (ConfigValue.str (lib.Getenv "UUID"))
  else lib.GetStringMap v "agent" "uuid"

/-- The configuration read in, before `initializeConfig` touches it. -/
def configRead {V U R : Type} (lib : ConfigLib V U R) (cfgFile cfgPath : String) : V :=
  (lib.ReadInConfig (configSource cfgFile cfgPath)).1

/-- The agent uuid of a configuration: the entry `uuid` of its section `agent`, as a later
`v.GetStringMap("agent")` reads it. -/
def agentUuid {V U R : Type} (lib : ConfigLib V U R) (v : V) : Option (ConfigValue U) :=
  lib.GetStringMap v "agent" "uuid"

/-- A record whose value is present and not of length zero. -/
def hasValue (msg : ProducerMessage) : Prop :=
  ∃ v, msg.Value = some v ∧ v.Length ≠ 0

/-- Every record the producer goroutine holds or has handed to `sendMsg` has a value that
is not of length zero. -/
def ValueInv {W : Type} (f : Fiber W) : Prop :=
  (∀ r ∈ f.msgs, hasValue r) ∧ ∀ batch ∈ f.sent, ∀ r ∈ batch, hasValue r

/-! ## Concrete worlds and inputs -/

/-- An outside world that replays a script: `answers` are the results of the coming
`SendMessages` calls (a nil error once the script is used up), `times` the coming clock
readings (0 once used up); `calls` records the batches given to `SendMessages`. -/
structure Replay where
  answers : List (Option (List ProducerError))
  times : List Int
  calls : List (List ProducerMessage)
deriving DecidableEq, Repr

/-- The broker client and clock of a replayed world. -/
def replayRuntime : Runtime Replay where
  SendMessages := fun msgs w =>
    match w.answers with
    | [] => (none, { w with calls := w.calls ++ [msgs] })
    | a :: rest => (a, { w with answers := rest, calls := w.calls ++ [msgs] })
  unixNow := fun w =>
    match w.times with
    | [] => (0, w)
    | t :: rest => (t, { w with times := rest })

/-- The replayed world with an empty script: every batch is accepted, the clock stands
at 0. -/
def quiet : Replay := { answers := [], times := [], calls := [] }

/-- The replayed world in which every batch is accepted and the clock reads 0 and then 1:
a second goes by between the entry of the loop and the first time check. -/
def secondLater : Replay := { answers := [], times := [0, 1], calls := [] }

/-- A broker that accepts every batch and a clock that stands at 0; the world is the list
of the batches published. -/
def steadyRuntime : Runtime (List (List ProducerMessage)) where
  SendMessages := fun msgs w => (none, w ++ [msgs])
  unixNow := fun w => (0, w)

/-- A record with a one-byte value: wire size 27. -/
def m27 : ProducerMessage :=
  { Topic := "t", Key := none, Value := some (ByteEncoder [0]), Headers := [] }

/-- A value of 274 bytes. -/
def payload274 : Encoder := ByteEncoder (List.replicate 274 0)

/-- A record with a value of 274 bytes: wire size 300. -/
def m300 : ProducerMessage :=
  { Topic := "t", Key := none, Value := some payload274, Headers := [] }

/-- A configuration with a negative `MaxMessageBytes`. -/
def negConf : kafkaSinkConfig :=
  { Topic := "", Topic_prefix := "", MaxMessageBytes := -1, NbProducer := 1, Secret := "" }

/-- A configuration with `MaxMessageBytes = 54`, twice the wire size of `m27`. -/
def conf54 : kafkaSinkConfig :=
  { Topic := "", Topic_prefix := "", MaxMessageBytes := 54, NbProducer := 1, Secret := "" }

/-- The configuration of the batch-boundary scenario: `MaxMessageBytes = 1000`. -/
def conf1000 : kafkaSinkConfig :=
  { Topic := "", Topic_prefix := "", MaxMessageBytes := 1000, NbProducer := 1, Secret := "" }

/-- A running producer goroutine whose pending batch is `[m27]`. -/
def pending27 : Fiber Replay :=
  { msgs := [m27], msgsSize := 27, lastSend := 0, sent := [],
    world := { answers := [], times := [], calls := [] }, status := Status.running }

/-- A codec whose `json.Marshal` always fails, returning no bytes, and whose encryption
leaves the bytes as they are. -/
def failingCodec : Codec Unit where
  MarshalSql := fun _ => ([], some "json: unsupported value")
  MarshalGeneric := fun _ => ([], some "json: unsupported value")
  EncryptBytes := fun _ b _ => (b, none)
  EncryptString := fun _ b _ => (b, none)

/-- A codec that serializes every event to the two bytes of `{}` and encrypts by putting
one byte in front. -/
def plainCodec : Codec Unit where
  MarshalSql := fun _ => ([123, 125], none)
  MarshalGeneric := fun _ => ([123, 125], none)
  EncryptBytes := fun _ b _ => (0 :: b, none)
  EncryptString := fun _ b _ => (0 :: b, none)

/-- An SQL event of environment `prod` and database `db`. -/
def sqlEv : SqlEvent :=
  { Environment := "prod", Database := "db", Table := "t", PrimaryKey := "1", Statement := "x" }

/-- A generic event of environment `prod`. -/
def genericEv : GenericEvent := { Environment := "prod", Value := "x" }

/-- A pass-through message that arrived on topic `in`. -/
def kafkaEv : ConsumerMessage := { Topic := "in", Key := [], Value := [1, 2] }

/-- A sink configuration with no topic, the topic prefix `p_` and no secret. -/
def confTopicless : kafkaSinkConfig :=
  { Topic := "", Topic_prefix := "p_", MaxMessageBytes := 54, NbProducer := 1, Secret := "" }

/-- Action constants for the examples. -/
def consts : ControlConsts where
  SourceStart := "SourceStart"
  SourceStop := "SourceStop"
  SourceRestart := "SourceRestart"
  SourceAvailableAction := "SourceAvailableAction"
  distinct := by decide

/-- A source whose state counts the calls made on it and whose `Stop` always fails. -/
def stubbornSource : SourceI Nat Unit where
  Start := fun n => (n + 1, none)
  Stop := fun n => (n + 1, some "cannot stop")
  Process := fun n _ _ => n + 1
  GetAvailableActions := fun n => (n + 1, ())

/-- An agent with the single source `s1`. -/
def agentS1 : Agent Nat Unit where
  sources := fun n => if n = "s1" then some 0 else none
  invoked := []
  outbox := []

/-- A decoder that answers a restart request for `s1` on every payload. -/
def decodeRestart : List UInt8 → Except String ControlSource :=
  fun _ => Except.ok { Token := "", Name := "s1", Action := "SourceRestart", Payload := [] }

/-- The text of a UUID that the sample library parses. -/
def sampleUuidText : String := "6ba7b810-9dad-11d1-80b4-00c04fd430c8"

/-- A model of viper, of the uuid package and of the system, for an environment `env` and a
configuration file whose section `agent` is `config` (`none` when the file has no such
section). A configuration is its section `agent`, if it has one. As in viper,
`GetStringMap` of a section that is there hands out the stored map itself, so that
assignments to the map change the configuration; `GetStringMap` of a section that is not
there hands out a fresh empty map, which the configuration does not hold, so that
assignments to it leave the configuration as it was; `Set` stores the map given.
`uuid.FromString` parses `sampleUuidText` only, as the UUID 1; `uuid.NewV4` gives the
number drawn; the host is `host1`. -/
def viperLib (env : String → String) (config : Option (AgentMap Nat)) :
    ConfigLib (Option (AgentMap Nat)) Nat Nat where
  ReadInConfig := fun _ => (config, none)
  GetStringMap := fun v _ =>
    match v with
    | some m => m
    | none => fun _ => none
  Set := fun _ _ m => some m
  written := fun v _ m =>
    match v with
    | some _ => some m
    | none => none
  Getenv := env
  Hostname := Except.ok "host1"
  FromString := fun s => if s = sampleUuidText then some 1 else none
  NewV4 := fun r => r

/-- An environment in which `UUID` is set to the sample UUID and nothing else is set. -/
def envWithUuid : String → String :=
  fun name => if name = "UUID" then sampleUuidText else ""

/-- An environment in which nothing is set. -/
def noEnv : String → String := fun _ => ""

/-- An `agent` section with no entry. -/
def agentEmpty : AgentMap Nat := fun _ => none

/-- A pass-through message with an empty value. -/
def kafkaEmpty : ConsumerMessage := { Topic := "in", Key := [7], Value := [] }

/-- The record the consumer makes of `kafkaEmpty` under `confTopicless`: an empty value. -/
def emptyRecord : ProducerMessage :=
  { Topic := "p_in", Key := some (ByteEncoder [7]), Value := some (StringEncoder []),
    Headers := [] }

/-! ## Lemmas on batches and on `callSendMsg` -/

theorem batchBytes_nil : batchBytes [] = 0 := rfl

theorem batchBytes_append (a b : List ProducerMessage) :
    batchBytes (a ++ b) = batchBytes a + batchBytes b := by
  simp [batchBytes]

theorem batchBytes_singleton (m : ProducerMessage) : batchBytes [m] = msgByteSize m := by
  simp [batchBytes]

theorem callSendMsg_cases {W : Type} (rt : Runtime W) (f : Fiber W) (ms : List ProducerMessage)
    (sz : Int) :
    ∃ w, (∃ t, sendMsg rt f.msgs f.world = (SendOutcome.returned t, w) ∧ callSendMsg rt f ms sz =
        { msgs := ms, msgsSize := sz, lastSend := t, sent := f.sent ++ [f.msgs], world := w,
          status := f.status }) ∨
      ((∃ n, sendMsg rt f.msgs f.world = (SendOutcome.panic n, w)) ∧ callSendMsg rt f ms sz =
        { f with sent := f.sent ++ [f.msgs], world := w, status := Status.panicked }) := by
  unfold callSendMsg
  rcases h : sendMsg rt f.msgs f.world with ⟨o, w⟩
  refine ⟨w, ?_⟩
  cases o with
  | returned t => exact Or.inl ⟨t, rfl, rfl⟩
  | panic n => exact Or.inr ⟨⟨n, rfl⟩, rfl⟩

theorem callSendMsg_inv {W : Type} (rt : Runtime W) (conf : kafkaSinkConfig) (f : Fiber W)
    (ms : List ProducerMessage) (sz : Int) (hf : FiberInv conf f)
    (hrec : ∀ r ∈ ms, msgByteSize r ≤ conf.MaxMessageBytes) (hsz : batchBytes ms = sz)
    (hle : sz ≤ conf.MaxMessageBytes) :
    FiberInv conf (callSendMsg rt f ms sz) := by
  obtain ⟨frec, fsum, fle, fsent⟩ := hf
  have hsent2 : ∀ batch ∈ f.sent ++ [f.msgs], withinLimit conf batch := by
    intro batch hb
    rcases List.mem_append.mp hb with h | h
    · exact fsent batch h
    · rw [List.mem_singleton] at h
      subst h
      exact ⟨frec, by rw [fsum]; exact fle⟩
  obtain ⟨w, ⟨t, -, h⟩ | ⟨-, h⟩⟩ := callSendMsg_cases rt f ms sz
  · rw [h]; exact ⟨hrec, hsz, hle, hsent2⟩
  · rw [h]; exact ⟨frec, fsum, fle, hsent2⟩

/-! ## The loop invariant -/

theorem sizeCheck_inv {W : Type} (rt : Runtime W) (conf : kafkaSinkConfig) (f : Fiber W)
    (msg : ProducerMessage) (hf : FiberInv conf f) : FiberInv conf (sizeCheck rt conf f msg) := by
  unfold sizeCheck
  simp only
  split_ifs with h1 h2
  · exact hf
  · obtain ⟨hrec, hsum, hle, hsent⟩ := hf
    refine ⟨?_, ?_, ?_, hsent⟩
    · intro r hr
      rcases List.mem_append.mp hr with h | h
      · exact hrec r h
      · rw [List.mem_singleton] at h; subst h; exact not_lt.mp h1
    · simp [batchBytes_append, batchBytes_singleton, hsum]
    · exact le_of_lt h2
  · refine callSendMsg_inv rt conf f _ _ hf ?_ (batchBytes_singleton msg) (not_lt.mp h1)
    intro r hr
    rw [List.mem_singleton] at hr
    subst hr; exact not_lt.mp h1

theorem tickCheck_inv {W : Type} (rt : Runtime W) (conf : kafkaSinkConfig) (f : Fiber W)
    (hmax : 0 ≤ conf.MaxMessageBytes) (hf : FiberInv conf f) : FiberInv conf (tickCheck rt f) := by
  unfold tickCheck
  split
  · simp only
    split_ifs with h
    · have hf2 : FiberInv conf { f with world := (rt.unixNow f.world).2 } := hf
      exact callSendMsg_inv rt conf _ _ _ hf2 (by simp) batchBytes_nil hmax
    · exact hf
  · exact hf

theorem onMessage_inv {W : Type} (rt : Runtime W) (conf : kafkaSinkConfig) (f : Fiber W)
    (msg : ProducerMessage) (hmax : 0 ≤ conf.MaxMessageBytes) (hf : FiberInv conf f) :
    FiberInv conf (onMessage rt conf f msg) := by
  unfold onMessage
  split
  · exact hf
  · split_ifs with h1 h2
    · exact callSendMsg_inv rt conf _ _ _ hf (by simp) batchBytes_nil hmax
    · exact hf
    · exact tickCheck_inv rt conf _ hmax (sizeCheck_inv rt conf f msg hf)

theorem loopStep_inv {W : Type} (rt : Runtime W) (conf : kafkaSinkConfig) (f : Fiber W)
    (s : Signal) (hmax : 0 ≤ conf.MaxMessageBytes) (hf : FiberInv conf f) :
    FiberInv conf (loopStep rt conf f s) := by
  unfold loopStep
  split
  · cases s with
    | recv msg => exact onMessage_inv rt conf f msg hmax hf
    | stop => exact hf
  · exact hf

theorem producerLoop_inv {W : Type} (rt : Runtime W) (conf : kafkaSinkConfig)
    (hmax : 0 ≤ conf.MaxMessageBytes) (signals : List Signal) :
    ∀ f : Fiber W, FiberInv conf f → FiberInv conf (producerLoop rt conf f signals) := by
  induction signals with
  | nil => intro f hf; exact hf
  | cons s rest ih =>
    intro f hf
    exact ih _ (loopStep_inv rt conf f s hmax hf)

theorem initFiber_inv {W : Type} (rt : Runtime W) (conf : kafkaSinkConfig) (w : W)
    (hmax : 0 ≤ conf.MaxMessageBytes) : FiberInv conf (initFiber rt w) :=
  ⟨by simp [initFiber], by simp [initFiber, batchBytes_nil], by simpa [initFiber] using hmax,
    by simp [initFiber]⟩

/-! ## Evaluation on the concrete worlds -/

theorem length_payload274 : payload274.Length = 274 := by
  simp only [payload274, ByteEncoder, Encoder.Length, List.length_replicate]
  rfl

theorem msgByteSize_m300 : msgByteSize m300 = 300 := by
  simp only [msgByteSize, m300, List.foldl, length_payload274]
  rfl

theorem msgByteSize_m27 : msgByteSize m27 = 27 := by decide

theorem m27_Value : m27.Value = some (ByteEncoder [0]) := rfl

theorem m300_Value : m300.Value = some payload274 := rfl

theorem length_one_byte : (ByteEncoder [0]).Length = 1 := by decide

theorem sendMsg_replay_quiet (batch : List ProducerMessage)
    (calls : List (List ProducerMessage)) :
    sendMsg replayRuntime batch { answers := [], times := [], calls := calls } =
      (SendOutcome.returned 0, { answers := [], times := [], calls := calls ++ [batch] }) := by
  simp [sendMsg, sendMsgRetry, replayRuntime]

theorem unixNow_replay_quiet (answers : List (Option (List ProducerError)))
    (calls : List (List ProducerMessage)) :
    replayRuntime.unixNow { answers := answers, times := [], calls := calls } =
      (0, { answers := answers, times := [], calls := calls }) := rfl

theorem unixNow_replay_cons (answers : List (Option (List ProducerError))) (t : Int)
    (times : List Int) (calls : List (List ProducerMessage)) :
    replayRuntime.unixNow { answers := answers, times := t :: times, calls := calls } =
      (t, { answers := answers, times := times, calls := calls }) := rfl

theorem sendMsg_of_accepted {W : Type} (rt : Runtime W)
    (hsend : ∀ batch w, (rt.SendMessages batch w).1 = none) (batch : List ProducerMessage)
    (w : W) :
    sendMsg rt batch w = (SendOutcome.returned (rt.unixNow (rt.SendMessages batch w).2).1,
      (rt.unixNow (rt.SendMessages batch w).2).2) := by
  unfold sendMsg
  simp only
  rw [hsend batch w]
  unfold sendMsgRetry
  rfl

theorem steady_accepts (batch : List ProducerMessage) (w : List (List ProducerMessage)) :
    (steadyRuntime.SendMessages batch w).1 = none := rfl

theorem sendMsg_steady (batch : List ProducerMessage) (w : List (List ProducerMessage)) :
    sendMsg steadyRuntime batch w = (SendOutcome.returned 0, w ++ [batch]) :=
  sendMsg_of_accepted steadyRuntime steady_accepts batch w

theorem negative_limit_run_sent :
    (startProducer replayRuntime negConf secondLater [Signal.recv m27]).sent = [[]] := by
  simp [startProducer, producerLoop, initFiber, loopStep, onMessage, sizeCheck, tickCheck,
    callSendMsg, sendMsg_replay_quiet, unixNow_replay_cons, m27_Value, length_one_byte,
    msgByteSize_m27, negConf, secondLater]

/-! ## The records taken in, when `sendMsg` returns -/

theorem callSendMsg_of_returns {W : Type} (rt : Runtime W) (f : Fiber W)
    (ms : List ProducerMessage) (sz : Int)
    (hsend : ∀ batch w, ∃ t w1, sendMsg rt batch w = (SendOutcome.returned t, w1)) :
    ∃ t w1, callSendMsg rt f ms sz =
      { msgs := ms, msgsSize := sz, lastSend := t, sent := f.sent ++ [f.msgs], world := w1,
        status := f.status } := by
  obtain ⟨t, w1, h⟩ := hsend f.msgs f.world
  exact ⟨t, w1, by simp [callSendMsg, h]⟩

theorem tickCheck_accepted {W : Type} (rt : Runtime W) (g : Fiber W)
    (hsend : ∀ batch w, ∃ t w1, sendMsg rt batch w = (SendOutcome.returned t, w1))
    (hg : g.status = Status.running) :
    (tickCheck rt g).status = Status.running ∧ accepted (tickCheck rt g) = accepted g := by
  unfold tickCheck
  split
  · simp only
    split_ifs with h
    · obtain ⟨t, w1, h2⟩ := callSendMsg_of_returns rt { g with world := (rt.unixNow g.world).2 }
        [] 0 hsend
      rw [h2]
      simp [accepted, hg]
    · simp [accepted, hg]
  · exact ⟨hg, rfl⟩

theorem sizeCheck_accepted {W : Type} (rt : Runtime W) (conf : kafkaSinkConfig) (f : Fiber W)
    (msg : ProducerMessage)
    (hsend : ∀ batch w, ∃ t w1, sendMsg rt batch w = (SendOutcome.returned t, w1))
    (hrun : f.status = Status.running) :
    (sizeCheck rt conf f msg).status = Status.running ∧
      accepted (sizeCheck rt conf f msg) =
        accepted f ++ [msg].filter (fun m => decide (msgByteSize m ≤ conf.MaxMessageBytes)) := by
  unfold sizeCheck
  simp only
  split_ifs with h1 h2
  · simp [hrun, List.filter, not_le.mpr h1]
  · simp [hrun, accepted, List.filter, not_lt.mp h1]
  · obtain ⟨t, w1, h3⟩ := callSendMsg_of_returns rt f [msg] (msgByteSize msg) hsend
    rw [h3]
    simp [hrun, accepted, List.filter, not_lt.mp h1]

theorem onMessage_accepted {W : Type} (rt : Runtime W) (conf : kafkaSinkConfig) (f : Fiber W)
    (msg : ProducerMessage)
    (hsend : ∀ batch w, ∃ t w1, sendMsg rt batch w = (SendOutcome.returned t, w1))
    (hval : ∃ v, msg.Value = some v ∧ v.Length ≠ 0) (hrun : f.status = Status.running) :
    (onMessage rt conf f msg).status = Status.running ∧
      accepted (onMessage rt conf f msg) =
        accepted f ++ [msg].filter (fun m => decide (msgByteSize m ≤ conf.MaxMessageBytes)) := by
  obtain ⟨v, hv, hlen⟩ := hval
  unfold onMessage
  rw [hv]
  simp only [hlen, if_false]
  have key := sizeCheck_accepted rt conf f msg hsend hrun
  obtain ⟨h1, h2⟩ := tickCheck_accepted rt _ hsend key.1
  exact ⟨h1, by rw [h2, key.2]⟩

theorem producerLoop_accepted {W : Type} (rt : Runtime W) (conf : kafkaSinkConfig)
    (hsend : ∀ batch w, ∃ t w1, sendMsg rt batch w = (SendOutcome.returned t, w1))
    (ms : List ProducerMessage) :
    ∀ f : Fiber W, (∀ m ∈ ms, ∃ v, m.Value = some v ∧ v.Length ≠ 0) →
      f.status = Status.running →
      (producerLoop rt conf f (ms.map Signal.recv)).status = Status.running ∧
        accepted (producerLoop rt conf f (ms.map Signal.recv)) =
          accepted f ++ ms.filter (fun m => decide (msgByteSize m ≤ conf.MaxMessageBytes)) := by
  induction ms with
  | nil => intro f _ hrun; simp [producerLoop, hrun]
  | cons m rest ih =>
    intro f hval hrun
    have hm := onMessage_accepted rt conf f m hsend (hval m (List.mem_cons_self m rest)) hrun
    have hstep : loopStep rt conf f (Signal.recv m) = onMessage rt conf f m := by
      simp [loopStep, hrun]
    have := ih (onMessage rt conf f m) (fun x hx => hval x (List.mem_cons_of_mem m hx)) hm.1
    simp only [producerLoop, List.map_cons, List.foldl_cons, hstep] at this ⊢
    refine ⟨this.1, ?_⟩
    rw [this.2, hm.2, List.append_assoc, ← List.filter_append]
    rfl

theorem producerLoop_append {W : Type} (rt : Runtime W) (conf : kafkaSinkConfig) (f : Fiber W)
    (a b : List Signal) :
    producerLoop rt conf f (a ++ b) = producerLoop rt conf (producerLoop rt conf f a) b := by
  simp [producerLoop, List.foldl_append]

theorem producerLoop_not_running {W : Type} (rt : Runtime W) (conf : kafkaSinkConfig)
    (signals : List Signal) :
    ∀ f : Fiber W, f.status ≠ Status.running → producerLoop rt conf f signals = f := by
  induction signals with
  | nil => intro f _; rfl
  | cons s rest ih =>
    intro f hf
    have h : loopStep rt conf f s = f := by
      unfold loopStep
      split
      · contradiction
      · rfl
    simp only [producerLoop, List.foldl_cons, h]
    exact ih f hf

/-! ## C1: every batch handed to `sendMsg` is within `MaxMessageBytes` -/

/-- C1, counterexample. With `MaxMessageBytes = -1` the producer loop receives one record of
wire size 27 while a second has gone by on the clock: the record is skipped, the time check
hands the empty batch to `sendMsg`, and the sum of the wire sizes of that batch, 0, is not
at most `MaxMessageBytes`. -/
theorem startProducer_sent_limit_fails_negative :
    ¬ (∀ batch ∈ (startProducer replayRuntime negConf secondLater [Signal.recv m27]).sent,
      (∀ r ∈ batch, msgByteSize r ≤ negConf.MaxMessageBytes) ∧
        batchBytes batch ≤ negConf.MaxMessageBytes) := by
  intro h
  have h1 := (h [] (by rw [negative_limit_run_sent]; simp)).2
  revert h1
  decide

/-- C1, amended. For every `MaxMessageBytes ≥ 0`, every broker, every clock and every finite
sequence of signals received by the producer loop, each batch handed to `sendMsg` has every
record of wire size at most `MaxMessageBytes` and a sum of wire sizes at most
`MaxMessageBytes`. -/
theorem startProducer_sent_within_limit {W : Type} (rt : Runtime W) (conf : kafkaSinkConfig)
    (w : W) (signals : List Signal) (hmax : 0 ≤ conf.MaxMessageBytes) :
    ∀ batch ∈ (startProducer rt conf w signals).sent,
      (∀ r ∈ batch, msgByteSize r ≤ conf.MaxMessageBytes) ∧
        batchBytes batch ≤ conf.MaxMessageBytes :=
  (producerLoop_inv rt conf hmax signals _ (initFiber_inv rt conf w hmax)).2.2.2

/-- C1, the amended statement at a concrete run: limit 54 and three records of wire size
27, which gives the batches `[m27]` and `[m27]`, then the stop signal. -/
theorem startProducer_sent_within_limit_witness :
    0 ≤ conf54.MaxMessageBytes ∧
      ∀ batch ∈ (startProducer steadyRuntime conf54 []
          [Signal.recv m27, Signal.recv m27, Signal.recv m27, Signal.stop]).sent,
        (∀ r ∈ batch, msgByteSize r ≤ conf54.MaxMessageBytes) ∧
          batchBytes batch ≤ conf54.MaxMessageBytes :=
  ⟨by decide, startProducer_sent_within_limit steadyRuntime conf54 []
    [Signal.recv m27, Signal.recv m27, Signal.recv m27, Signal.stop] (by decide)⟩

/-! ## C2: accepted records are neither lost, duplicated nor reordered -/

/-- C2. In a producer goroutine whose calls of `sendMsg` all return, for every finite sequence
`ms` of received messages with non-empty values and after each step `n`: the goroutine is
still in its loop, and the batches handed to `sendMsg` so far, concatenated and followed by
the pending batch, are exactly the received messages of wire size at most
`MaxMessageBytes`, in arrival order. -/
theorem startProducer_preserves_accepted {W : Type} (rt : Runtime W) (conf : kafkaSinkConfig)
    (w : W) (ms : List ProducerMessage) (n : Nat)
    (hval : ∀ m ∈ ms, ∃ v, m.Value = some v ∧ v.Length ≠ 0)
    (hsend : ∀ batch w, ∃ t w1, sendMsg rt batch w = (SendOutcome.returned t, w1)) :
    (startProducer rt conf w ((ms.take n).map Signal.recv)).status = Status.running ∧
      (startProducer rt conf w ((ms.take n).map Signal.recv)).sent.flatten ++
          (startProducer rt conf w ((ms.take n).map Signal.recv)).msgs =
        (ms.take n).filter (fun m => decide (msgByteSize m ≤ conf.MaxMessageBytes)) := by
  have h := producerLoop_accepted rt conf hsend (ms.take n) (initFiber rt w)
    (fun m hm => hval m (List.mem_of_mem_take hm)) rfl
  refine ⟨h.1, ?_⟩
  have h2 := h.2
  simp only [accepted] at h2
  simpa [startProducer, initFiber] using h2

/-- C2 at a concrete run: limit 54 and the records of wire size 27, 300, 27; the record of
wire size 300 is the only one left out. -/
theorem startProducer_preserves_accepted_witness :
    (∀ m ∈ [m27, m300, m27], ∃ v, m.Value = some v ∧ v.Length ≠ 0) ∧
      (startProducer steadyRuntime conf54 [] (([m27, m300, m27].take 3).map Signal.recv)).sent.flatten
          ++ (startProducer steadyRuntime conf54 [] (([m27, m300, m27].take 3).map Signal.recv)).msgs
        = ([m27, m300, m27].take 3).filter
            (fun m => decide (msgByteSize m ≤ conf54.MaxMessageBytes)) :=
  have hval : ∀ m ∈ [m27, m300, m27], ∃ v, m.Value = some v ∧ v.Length ≠ 0 := by
    intro m hm
    simp only [List.mem_cons, List.mem_singleton, List.not_mem_nil, or_false] at hm
    rcases hm with h | h | h
    · subst h; exact ⟨ByteEncoder [0], rfl, by decide⟩
    · subst h; exact ⟨payload274, rfl, by rw [length_payload274]; decide⟩
    · subst h; exact ⟨ByteEncoder [0], rfl, by decide⟩
  ⟨hval, (startProducer_preserves_accepted steadyRuntime conf54 [] [m27, m300, m27] 3 hval
    (fun batch w => ⟨0, w ++ [batch], sendMsg_steady batch w⟩)).2⟩

/-! ## C3: the stop signal -/

/-- C3, counterexample. A producer goroutine receives one record and then the stop signal: it
leaves the loop with the record still pending, no batch was handed to `sendMsg` and the
broker received no call. -/
theorem stop_leaves_pending_batch_unsent :
    (startProducer replayRuntime conf54 quiet [Signal.recv m27, Signal.stop]).status
        = Status.stopped ∧
      (startProducer replayRuntime conf54 quiet [Signal.recv m27, Signal.stop]).msgs = [m27] ∧
      (startProducer replayRuntime conf54 quiet [Signal.recv m27, Signal.stop]).sent = [] ∧
      (startProducer replayRuntime conf54 quiet [Signal.recv m27, Signal.stop]).world.calls
        = [] := by
  decide

/-- C3, amended. When a producer goroutine that is in its loop receives the stop signal it
leaves the loop and nothing else changes: no batch is handed to `sendMsg`, the broker and
the clock are not called, the pending batch stays where it is, and no later signal is
received. -/
theorem stop_breaks_without_sendMsg {W : Type} (rt : Runtime W) (conf : kafkaSinkConfig) (w : W)
    (signals rest : List Signal)
    (hrun : (startProducer rt conf w signals).status = Status.running) :
    startProducer rt conf w (signals ++ Signal.stop :: rest) =
      { startProducer rt conf w signals with status := Status.stopped } := by
  unfold startProducer at hrun ⊢
  rw [producerLoop_append]
  have hstep : loopStep rt conf (producerLoop rt conf (initFiber rt w) signals) Signal.stop =
      { producerLoop rt conf (initFiber rt w) signals with status := Status.stopped } := by
    unfold loopStep
    rw [hrun]
  show producerLoop rt conf
    (loopStep rt conf (producerLoop rt conf (initFiber rt w) signals) Signal.stop) rest = _
  rw [hstep]
  exact producerLoop_not_running rt conf rest _ (by simp)

/-- C3, the amended statement at a concrete run: one record of wire size 27, then stop. -/
theorem stop_breaks_without_sendMsg_witness :
    (startProducer replayRuntime conf54 quiet [Signal.recv m27]).status = Status.running ∧
      startProducer replayRuntime conf54 quiet ([Signal.recv m27] ++ Signal.stop :: []) =
        { startProducer replayRuntime conf54 quiet [Signal.recv m27] with
          status := Status.stopped } :=
  ⟨by decide,
   stop_breaks_without_sendMsg replayRuntime conf54 quiet [Signal.recv m27] [] (by decide)⟩

/-! ## C4: the batch-boundary scenario -/

/-- C4, counterexample. With `MaxMessageBytes = 1000`, a broker that accepts every batch and a
clock that stands still, ten records of wire size 300 followed by the stop signal give the
batch sizes 3, 3, 3 and not 3, 3, 3, 1. -/
theorem ten_of_300_flushes_three_batches :
    (startProducer replayRuntime conf1000 quiet
        (List.replicate 10 (Signal.recv m300) ++ [Signal.stop])).sent.map List.length
      = [3, 3, 3] ∧
    (startProducer replayRuntime conf1000 quiet
        (List.replicate 10 (Signal.recv m300) ++ [Signal.stop])).sent.map List.length
      ≠ [3, 3, 3, 1] := by
  have h : (startProducer replayRuntime conf1000 quiet
      (List.replicate 10 (Signal.recv m300) ++ [Signal.stop])).sent.map List.length
      = [3, 3, 3] := by
    simp [startProducer, producerLoop, initFiber, loopStep, onMessage, sizeCheck, tickCheck,
      callSendMsg, sendMsg_replay_quiet, unixNow_replay_quiet, List.replicate, m300_Value,
      length_payload274, quiet, msgByteSize_m300, conf1000]
  rw [h]
  exact ⟨rfl, by decide⟩

/-- C4, amended. With `MaxMessageBytes = 1000`, a broker that accepts every batch and a clock
on which no second goes by, ten received messages with non-empty values, each of wire size
300, followed by the stop signal give exactly three batches handed to `sendMsg`, of 3, 3
and 3 records in arrival order; the tenth message is left pending and is not flushed, and
no batch handed over exceeds 1000 bytes. -/
theorem batch_boundary_three_flushes {W : Type} (rt : Runtime W) (conf : kafkaSinkConfig) (w : W)
    (t0 : Int) (m1 m2 m3 m4 m5 m6 m7 m8 m9 m10 : ProducerMessage)
    (hmax : conf.MaxMessageBytes = 1000)
    (hclock : ∀ w, (rt.unixNow w).1 = t0)
    (hsend : ∀ batch w, (rt.SendMessages batch w).1 = none)
    (hmsgs : ∀ m ∈ [m1, m2, m3, m4, m5, m6, m7, m8, m9, m10],
      msgByteSize m = 300 ∧ ∃ v, m.Value = some v ∧ v.Length ≠ 0) :
    (startProducer rt conf w
        ([m1, m2, m3, m4, m5, m6, m7, m8, m9, m10].map Signal.recv ++ [Signal.stop])).sent
        = [[m1, m2, m3], [m4, m5, m6], [m7, m8, m9]] ∧
      (startProducer rt conf w
        ([m1, m2, m3, m4, m5, m6, m7, m8, m9, m10].map Signal.recv ++ [Signal.stop])).msgs
        = [m10] ∧
      (startProducer rt conf w
        ([m1, m2, m3, m4, m5, m6, m7, m8, m9, m10].map Signal.recv ++ [Signal.stop])).status
        = Status.stopped ∧
      ∀ batch ∈ (startProducer rt conf w
        ([m1, m2, m3, m4, m5, m6, m7, m8, m9, m10].map Signal.recv ++ [Signal.stop])).sent,
        batchBytes batch ≤ 1000 := by
  simp only [List.forall_mem_cons, List.not_mem_nil, false_implies, implies_true, and_true] at hmsgs
  obtain ⟨⟨s1, v1, e1, l1⟩, ⟨s2, v2, e2, l2⟩, ⟨s3, v3, e3, l3⟩, ⟨s4, v4, e4, l4⟩,
    ⟨s5, v5, e5, l5⟩, ⟨s6, v6, e6, l6⟩, ⟨s7, v7, e7, l7⟩, ⟨s8, v8, e8, l8⟩, ⟨s9, v9, e9, l9⟩,
    ⟨s10, v10, e10, l10⟩⟩ := hmsgs
  have hrun : (startProducer rt conf w
        ([m1, m2, m3, m4, m5, m6, m7, m8, m9, m10].map Signal.recv ++ [Signal.stop])).sent
        = [[m1, m2, m3], [m4, m5, m6], [m7, m8, m9]] ∧
      (startProducer rt conf w
        ([m1, m2, m3, m4, m5, m6, m7, m8, m9, m10].map Signal.recv ++ [Signal.stop])).msgs
        = [m10] ∧
      (startProducer rt conf w
        ([m1, m2, m3, m4, m5, m6, m7, m8, m9, m10].map Signal.recv ++ [Signal.stop])).status
        = Status.stopped := by
    simp [startProducer, producerLoop, initFiber, loopStep, onMessage, sizeCheck, tickCheck,
      callSendMsg, sendMsg_of_accepted rt hsend, hclock, hmax, s1, s2, s3, s4, s5, s6, s7, s8,
      s9, s10, e1, e2, e3, e4, e5, e6, e7, e8, e9, e10, l1, l2, l3, l4, l5, l6, l7, l8, l9, l10]
  refine ⟨hrun.1, hrun.2.1, hrun.2.2, ?_⟩
  rw [hrun.1]
  intro batch hb
  simp only [List.mem_cons, List.mem_singleton, List.not_mem_nil, or_false] at hb
  rcases hb with h | h | h <;> subst h <;>
    simp [batchBytes, s1, s2, s3, s4, s5, s6, s7, s8, s9]

/-- C4, the amended statement at ten copies of a record of wire size 300. -/
theorem batch_boundary_three_flushes_witness :
    conf1000.MaxMessageBytes = 1000 ∧
      (startProducer steadyRuntime conf1000 []
        ([m300, m300, m300, m300, m300, m300, m300, m300, m300, m300].map Signal.recv
          ++ [Signal.stop])).sent
        = [[m300, m300, m300], [m300, m300, m300], [m300, m300, m300]] :=
  ⟨rfl, (batch_boundary_three_flushes steadyRuntime conf1000 [] 0
    m300 m300 m300 m300 m300 m300 m300 m300 m300 m300 rfl (fun _ => rfl) steady_accepts
    (by
      intro m hm
      simp only [List.mem_cons, List.mem_singleton, List.not_mem_nil, or_false, or_self] at hm
      subst hm
      exact ⟨msgByteSize_m300, payload274, rfl, by rw [length_payload274]; decide⟩)).1⟩

/-! ## C5: the threshold of the size check -/

/-- C5, counterexample. With `MaxMessageBytes = 54`, a pending batch of 27 bytes and an incoming
record of 27 bytes, the byte total with the record is 54, within the limit, and yet the
size check hands the pending batch to `sendMsg` and restarts the batch with the record
instead of appending it. -/
theorem sizeCheck_flushes_at_equality :
    pending27.msgsSize + msgByteSize m27 ≤ conf54.MaxMessageBytes ∧
      (sizeCheck replayRuntime conf54 pending27 m27).sent = [[m27]] ∧
      (sizeCheck replayRuntime conf54 pending27 m27).msgs = [m27] ∧
      (sizeCheck replayRuntime conf54 pending27 m27).msgs ≠ pending27.msgs ++ [m27] := by
  have h : sizeCheck replayRuntime conf54 pending27 m27 =
      { msgs := [m27], msgsSize := 27, lastSend := 0, sent := [[m27]],
        world := { answers := [], times := [], calls := [[m27]] }, status := Status.running } := by
    simp [sizeCheck, callSendMsg, pending27, quiet, sendMsg_replay_quiet, msgByteSize_m27, conf54]
  rw [h]
  decide

/-- C5, amended. For an incoming message with a non-empty value and a wire size `mSize` at
most `MaxMessageBytes`, the loop body is the size check followed by the time check, and in
the size check: if `msgsSize + mSize < MaxMessageBytes` the message is appended to the
pending batch and nothing is handed to `sendMsg`; if `msgsSize + mSize ≥ MaxMessageBytes`
(equality included) the pending batch is handed to `sendMsg` and, when that call returns,
the batch restarts as the message alone. -/
theorem sizeCheck_strict_threshold {W : Type} (rt : Runtime W) (conf : kafkaSinkConfig)
    (f : Fiber W) (msg : ProducerMessage)
    (hval : ∃ v, msg.Value = some v ∧ v.Length ≠ 0)
    (hsize : msgByteSize msg ≤ conf.MaxMessageBytes) :
    onMessage rt conf f msg = tickCheck rt (sizeCheck rt conf f msg) ∧
      (f.msgsSize + msgByteSize msg < conf.MaxMessageBytes →
        sizeCheck rt conf f msg =
          { f with msgs := f.msgs ++ [msg], msgsSize := f.msgsSize + msgByteSize msg }) ∧
      (conf.MaxMessageBytes ≤ f.msgsSize + msgByteSize msg →
        (sizeCheck rt conf f msg).sent = f.sent ++ [f.msgs] ∧
          (sizeCheck rt conf f msg).world = (sendMsg rt f.msgs f.world).2 ∧
          ∀ t, (sendMsg rt f.msgs f.world).1 = SendOutcome.returned t →
            (sizeCheck rt conf f msg).msgs = [msg] ∧
              (sizeCheck rt conf f msg).msgsSize = msgByteSize msg ∧
              (sizeCheck rt conf f msg).lastSend = t) := by
  obtain ⟨v, hv, hlen⟩ := hval
  refine ⟨?_, ?_, ?_⟩
  · unfold onMessage
    rw [hv]
    simp only [hlen, if_false]
  · intro h
    unfold sizeCheck
    simp only [not_lt.mpr hsize, h, if_true, if_false]
  · intro h
    have hs : sizeCheck rt conf f msg = callSendMsg rt f [msg] (msgByteSize msg) := by
      unfold sizeCheck
      simp only [not_lt.mpr hsize, not_lt.mpr h, if_false]
    rw [hs]
    unfold callSendMsg
    rcases hr : sendMsg rt f.msgs f.world with ⟨o, w⟩
    cases o with
    | returned t1 =>
      refine ⟨rfl, rfl, ?_⟩
      intro t ht
      cases ht
      exact ⟨rfl, rfl, rfl⟩
    | panic n =>
      refine ⟨rfl, rfl, ?_⟩
      intro t ht
      cases ht

/-- C5, the amended statement at the pending batch of 27 bytes and a record of 27 bytes
under the limit 54. -/
theorem sizeCheck_strict_threshold_witness :
    (∃ v, m27.Value = some v ∧ v.Length ≠ 0) ∧
      msgByteSize m27 ≤ conf54.MaxMessageBytes ∧
      (conf54.MaxMessageBytes ≤ pending27.msgsSize + msgByteSize m27 →
        (sizeCheck replayRuntime conf54 pending27 m27).sent = pending27.sent ++ [pending27.msgs]) :=
  ⟨⟨ByteEncoder [0], rfl, by decide⟩, by decide,
    fun h => ((sizeCheck_strict_threshold replayRuntime conf54 pending27 m27
      ⟨ByteEncoder [0], rfl, by decide⟩ (by decide)).2.2 h).1⟩

/-! ## Lemmas on the consumer side -/

theorem goLen_eq_zero (s : String) : goLen s = 0 ↔ s = "" := by
  rcases s with ⟨cs⟩
  cases cs with
  | nil => simp [goLen, String.utf8ByteSize, String.utf8ByteSize.go]
  | cons c cs =>
    have := Char.utf8Size_pos c
    simp only [goLen, String.utf8ByteSize, String.utf8ByteSize.go]
    constructor
    · intro h; omega
    · intro h; exact absurd (congrArg String.data h) (by simp)

theorem goLen_pos (s : String) : goLen s > 0 ↔ s ≠ "" := by
  rw [← not_iff_not, not_not, ← goLen_eq_zero]
  have : 0 ≤ goLen s := by simp [goLen]
  omega

theorem sizeGate_of_gate (topic : String) (key : Option Encoder) (encoded : List UInt8)
    (threshold : Int) (e : String) (res : Except String ProducerMessage)
    (hres : res = if (encoded.length : Int) > threshold then Except.error e
      else Except.ok { Topic := topic, Key := key, Value := some (StringEncoder encoded),
                       Headers := [] }) :
    SizeGate res (forward res) encoded threshold := by
  subst hres
  by_cases h : threshold < (encoded.length : Int)
  · simp [SizeGate, isDropped, forward, h]
  · simp [SizeGate, isDropped, forward, h]

theorem encodedValue_of_goLen (secret : String) (serialized : List UInt8)
    (encrypt : List UInt8 → String → List UInt8 × Option String) :
    (if goLen secret > 0 then (encrypt serialized secret).1 else serialized) =
      encodedValue secret serialized encrypt := by
  unfold encodedValue
  by_cases h : secret = ""
  · rw [if_pos h, if_neg (fun hpos => (goLen_pos secret).mp hpos h)]
  · rw [if_neg h, if_pos ((goLen_pos secret).mpr h)]

theorem derivedTopic_of_goLen (conf : kafkaSinkConfig) (suffix : String) :
    (if goLen conf.Topic = 0 then kafkaSinkConfig.Topic_prefix conf ++ suffix else conf.Topic) =
      derivedTopic conf suffix := by
  unfold derivedTopic
  by_cases h : conf.Topic = ""
  · rw [if_pos h, if_pos ((goLen_eq_zero conf.Topic).mpr h)]
  · rw [if_neg h, if_neg (fun h0 => h ((goLen_eq_zero conf.Topic).mp h0))]

theorem processSQLEvent_eq {R : Type} (c : Codec R) (r : R) (sqlEvent : SqlEvent)
    (conf : kafkaSinkConfig) (threshold : Int) :
    processSQLEvent c r sqlEvent conf threshold =
      if ((encodedValue conf.Secret (c.MarshalSql sqlEvent).1 (c.EncryptString r)).length : Int)
          > threshold then
        Except.error "KafkaSink: Skip too heavy event"
      else
        Except.ok
          { Topic := derivedTopic conf (sqlEvent.Environment ++ "_" ++ sqlEvent.Database),
            Key := some (StringEncoder (goBytes sqlEvent.PrimaryKey)),
            Value := some (StringEncoder
              (encodedValue conf.Secret (c.MarshalSql sqlEvent).1 (c.EncryptString r))),
            Headers := [] } := by
  simp only [processSQLEvent, encodedValue_of_goLen conf.Secret _ (c.EncryptString r),
    String.append_assoc, derivedTopic_of_goLen]

theorem processGenericEvent_eq {R : Type} (c : Codec R) (r : R) (genericMsg : GenericEvent)
    (conf : kafkaSinkConfig) (threshold : Int) :
    processGenericEvent c r genericMsg conf threshold =
      if ((encodedValue conf.Secret (c.MarshalGeneric genericMsg).1
          (c.EncryptBytes r)).length : Int) > threshold then
        Except.error "KafkaSink: Skip too heavy event : "
      else
        Except.ok
          { Topic := derivedTopic conf genericMsg.Environment,
            Key := some (ByteEncoder (goBytes genericMsg.Environment)),
            Value := some (StringEncoder
              (encodedValue conf.Secret (c.MarshalGeneric genericMsg).1 (c.EncryptBytes r))),
            Headers := [] } := by
  simp only [processGenericEvent, encodedValue_of_goLen conf.Secret _ (c.EncryptBytes r),
    derivedTopic_of_goLen]

theorem processKafkaMsg_eq {R : Type} (c : Codec R) (r : R) (kafkaMsg : ConsumerMessage)
    (conf : kafkaSinkConfig) (threshold : Int) :
    processKafkaMsg c r kafkaMsg conf threshold =
      if ((encodedValue conf.Secret kafkaMsg.Value (c.EncryptBytes r)).length : Int)
          > threshold then
        Except.error "KafkaSink: Skip too heavy event"
      else
        Except.ok
          { Topic := derivedTopic conf kafkaMsg.Topic,
            Key := some (ByteEncoder kafkaMsg.Key),
            Value := some (StringEncoder
              (encodedValue conf.Secret kafkaMsg.Value (c.EncryptBytes r))),
            Headers := [] } := by
  simp only [processKafkaMsg, encodedValue, ne_eq, ite_not, derivedTopic_of_goLen]

theorem topic_of_ok (encoded : List UInt8) (threshold : Int) (e : String)
    (msg record : ProducerMessage)
    (h : (if (encoded.length : Int) > threshold then Except.error e else Except.ok msg) =
      Except.ok record) : record = msg := by
  split_ifs at h
  exact (Except.ok.inj h).symm

/-! ## C6: the size gate -/

/-- C6. For each of `processSQLEvent`, `processGenericEvent` and `processKafkaMsg`, every event,
configuration and threshold: the function returns an error and no record, and the consumer
forwards nothing, exactly when the length of the encoded value (the serialized bytes,
encrypted when the secret is non-empty) is strictly greater than the threshold; otherwise
it returns a record whose value is the encoded bytes, and the consumer forwards it. A
value of length equal to the threshold is therefore forwarded. -/
theorem size_gate_strict {R : Type} (c : Codec R) (r : R) (conf : kafkaSinkConfig)
    (threshold : Int) (sqlEvent : SqlEvent) (genericMsg : GenericEvent)
    (kafkaMsg : ConsumerMessage) :
    SizeGate (processSQLEvent c r sqlEvent conf threshold)
        (startConsumer c r conf threshold (Payload.sql sqlEvent))
        (encodedValue conf.Secret (c.MarshalSql sqlEvent).1 (c.EncryptString r)) threshold ∧
      SizeGate (processGenericEvent c r genericMsg conf threshold)
        (startConsumer c r conf threshold (Payload.generic genericMsg))
        (encodedValue conf.Secret (c.MarshalGeneric genericMsg).1 (c.EncryptBytes r)) threshold ∧
      SizeGate (processKafkaMsg c r kafkaMsg conf threshold)
        (startConsumer c r conf threshold (Payload.kafka kafkaMsg))
        (encodedValue conf.Secret kafkaMsg.Value (c.EncryptBytes r)) threshold :=
  ⟨sizeGate_of_gate _ _ _ _ _ _ (processSQLEvent_eq c r sqlEvent conf threshold),
    sizeGate_of_gate _ _ _ _ _ _ (processGenericEvent_eq c r genericMsg conf threshold),
    sizeGate_of_gate _ _ _ _ _ _ (processKafkaMsg_eq c r kafkaMsg conf threshold)⟩

/-! ## C7: the topic -/

/-- C7. For every event that passes the size gate the topic of the record is the configured
topic when that is non-empty, and otherwise the topic prefix followed by environment, `_`
and database for an SQL event, by the environment for a generic event, and by the topic of
the incoming message for a pass-through message. -/
theorem topic_derivation {R : Type} (c : Codec R) (r : R) (conf : kafkaSinkConfig)
    (threshold : Int) (sqlEvent : SqlEvent) (genericMsg : GenericEvent)
    (kafkaMsg : ConsumerMessage) :
    (∀ record, processSQLEvent c r sqlEvent conf threshold = Except.ok record →
        record.Topic = if conf.Topic ≠ "" then conf.Topic
          else kafkaSinkConfig.Topic_prefix conf ++ sqlEvent.Environment ++ "_"
            ++ sqlEvent.Database) ∧
      (∀ record, processGenericEvent c r genericMsg conf threshold = Except.ok record →
        record.Topic = if conf.Topic ≠ "" then conf.Topic
          else kafkaSinkConfig.Topic_prefix conf ++ genericMsg.Environment) ∧
      (∀ record, processKafkaMsg c r kafkaMsg conf threshold = Except.ok record →
        record.Topic = if conf.Topic ≠ "" then conf.Topic
          else kafkaSinkConfig.Topic_prefix conf ++ kafkaMsg.Topic) := by
  refine ⟨?_, ?_, ?_⟩
  · intro record h
    rw [processSQLEvent_eq] at h
    rw [topic_of_ok _ _ _ _ _ h]
    simp [derivedTopic, String.append_assoc]
  · intro record h
    rw [processGenericEvent_eq] at h
    rw [topic_of_ok _ _ _ _ _ h]
    simp [derivedTopic]
  · intro record h
    rw [processKafkaMsg_eq] at h
    rw [topic_of_ok _ _ _ _ _ h]
    simp [derivedTopic]

/-- C7 at an SQL event of environment `prod` and database `db` under the prefix `p_`. -/
theorem topic_derivation_witness :
    processSQLEvent plainCodec () sqlEv confTopicless 54 =
        Except.ok { Topic := "p_prod_db", Key := some (StringEncoder (goBytes "1")),
                    Value := some (StringEncoder [123, 125]), Headers := [] } ∧
      ({ Topic := "p_prod_db", Key := some (StringEncoder (goBytes "1")),
         Value := some (StringEncoder [123, 125]), Headers := [] } : ProducerMessage).Topic =
        if confTopicless.Topic ≠ "" then confTopicless.Topic
          else kafkaSinkConfig.Topic_prefix confTopicless ++ sqlEv.Environment ++ "_"
            ++ sqlEv.Database :=
  have h : processSQLEvent plainCodec () sqlEv confTopicless 54 =
      Except.ok { Topic := "p_prod_db", Key := some (StringEncoder (goBytes "1")),
                  Value := some (StringEncoder [123, 125]), Headers := [] } := by
    rfl
  ⟨h, (topic_derivation plainCodec () confTopicless 54 sqlEv genericEv kafkaEv).1 _ h⟩

/-! ## C8: the retry loop of `sendMsg` -/

theorem sendMsgRetry_replay_returns (rest : List (Option (List ProducerError)))
    (times : List Int) :
    ∀ (fs : List (List ProducerError)) (retries : Nat) (errs : List ProducerError)
      (calls : List (List ProducerMessage)), retries + fs.length ≤ 20 →
      sendMsgRetry replayRuntime retries (some errs)
          { answers := fs.map some ++ none :: rest, times := times, calls := calls } =
        (SendOutcome.returned (times.headD 0),
          { answers := rest, times := times.tail,
            calls := calls ++ (errs :: fs).map (List.map ProducerError.Msg) }) := by
  intro fs
  induction fs with
  | nil =>
    intro retries errs calls h
    rw [sendMsgRetry.eq_def]
    have h1 : ¬ retries > 20 := by simp at h; omega
    simp only [h1, if_false]
    rw [sendMsgRetry.eq_def]
    cases times <;> simp [replayRuntime]
  | cons f fs ih =>
    intro retries errs calls h
    rw [sendMsgRetry.eq_def]
    have h1 : ¬ retries > 20 := by simp at h; omega
    simp only [h1, if_false]
    have h2 : retries + 1 + fs.length ≤ 20 := by simp at h; omega
    have := ih (retries + 1) f (calls ++ [errs.map ProducerError.Msg]) h2
    simpa [replayRuntime] using this

theorem sendMsgRetry_replay_panics (rest : List (Option (List ProducerError)))
    (times : List Int) :
    ∀ (k retries : Nat) (fs : List (List ProducerError)) (errs : List ProducerError)
      (calls : List (List ProducerMessage)), retries + k = 21 → k ≤ fs.length →
      sendMsgRetry replayRuntime retries (some errs)
          { answers := fs.map some ++ rest, times := times, calls := calls } =
        (SendOutcome.panic 21,
          { answers := (fs.drop k).map some ++ rest, times := times,
            calls := calls ++ ((errs :: fs).take k).map (List.map ProducerError.Msg) }) := by
  intro k
  induction k with
  | zero =>
    intro retries fs errs calls h _
    rw [sendMsgRetry.eq_def]
    have h1 : retries = 21 := by omega
    subst h1
    simp
  | succ k ih =>
    intro retries fs errs calls h hk
    rw [sendMsgRetry.eq_def]
    have h1 : ¬ retries > 20 := by omega
    simp only [h1, if_false]
    cases fs with
    | nil => simp at hk
    | cons f fs =>
      have := ih (retries + 1) fs f (calls ++ [errs.map ProducerError.Msg]) (by omega)
        (by simpa using hk)
      simpa [replayRuntime] using this

/-- C8, counterexample. Over a broker that fails every call, `sendMsg` calls `SendMessages`
22 times, not 21, and then ends in the panic of `log.Panic` with `nbRetry = 21`. -/
theorem sendMsg_attempts_22_times_then_panics :
    (sendMsg replayRuntime [m27]
        { answers := List.replicate 30 (some [{ Msg := m27, Err := "down" }]), times := [],
          calls := [] }).1 = SendOutcome.panic 21 ∧
      (sendMsg replayRuntime [m27]
        { answers := List.replicate 30 (some [{ Msg := m27, Err := "down" }]), times := [],
          calls := [] }).2.calls.length = 22 := by
  constructor <;> simp [sendMsg, sendMsgRetry, replayRuntime, List.replicate]

/-- C8, amended. Over a broker whose first `k` answers are failures `fs`: if `k ≤ 21` and the
next call succeeds, `sendMsg` returns normally after exactly `k + 1` calls of
`SendMessages`, the first with the batch and each later one with the records of the
failure before it; if `k ≥ 22`, `sendMsg` gives up after exactly 22 calls, and giving up
is the panic of `log.Panic` ("Failed to push event to kafka. Stopping agent."). -/
theorem sendMsg_retry_budget (batch : List ProducerMessage) (fs : List (List ProducerError))
    (rest : List (Option (List ProducerError))) (times : List Int)
    (calls : List (List ProducerMessage)) :
    (fs.length ≤ 21 →
      (sendMsg replayRuntime batch
          { answers := fs.map some ++ none :: rest, times := times, calls := calls }).1
        = SendOutcome.returned (times.headD 0) ∧
      (sendMsg replayRuntime batch
          { answers := fs.map some ++ none :: rest, times := times, calls := calls }).2.calls
        = calls ++ batch :: fs.map (List.map ProducerError.Msg) ∧
      (sendMsg replayRuntime batch
          { answers := fs.map some ++ none :: rest, times := times,
            calls := calls }).2.calls.length
        = calls.length + (fs.length + 1)) ∧
    (22 ≤ fs.length →
      (sendMsg replayRuntime batch
          { answers := fs.map some ++ rest, times := times, calls := calls }).1
        = SendOutcome.panic 21 ∧
      (sendMsg replayRuntime batch
          { answers := fs.map some ++ rest, times := times, calls := calls }).2.calls.length
        = calls.length + 22) := by
  constructor
  · intro h
    cases fs with
    | nil =>
      have : sendMsg replayRuntime batch
          { answers := none :: rest, times := times, calls := calls } =
          (SendOutcome.returned (times.headD 0),
            { answers := rest, times := times.tail, calls := calls ++ [batch] }) := by
        unfold sendMsg
        rw [sendMsgRetry.eq_def]
        cases times <;> simp [replayRuntime]
      simp [this]
    | cons f fs =>
      have h2 : 0 + fs.length ≤ 20 := by simp at h; omega
      have := sendMsgRetry_replay_returns rest times fs 0 f (calls ++ [batch]) h2
      have h3 : sendMsg replayRuntime batch
          { answers := (f :: fs).map some ++ none :: rest, times := times, calls := calls } =
          (SendOutcome.returned (times.headD 0),
            { answers := rest, times := times.tail,
              calls := calls ++ [batch] ++ (f :: fs).map (List.map ProducerError.Msg) }) := by
        unfold sendMsg
        simpa [replayRuntime] using this
      rw [h3]
      refine ⟨rfl, by simp, ?_⟩
      simp only [List.length_append, List.length_map, List.length_cons, List.length_singleton,
        List.length_nil]
      omega
  · intro h
    cases fs with
    | nil => simp at h
    | cons f fs =>
      have h2 : 21 ≤ fs.length := by simp at h; omega
      have := sendMsgRetry_replay_panics rest times 21 0 fs f (calls ++ [batch]) rfl h2
      have h3 : sendMsg replayRuntime batch
          { answers := (f :: fs).map some ++ rest, times := times, calls := calls } =
          (SendOutcome.panic 21,
            { answers := (fs.drop 21).map some ++ rest, times := times,
              calls := calls ++ [batch] ++
                ((f :: fs).take 21).map (List.map ProducerError.Msg) }) := by
        unfold sendMsg
        simpa [replayRuntime] using this
      rw [h3]
      refine ⟨rfl, ?_⟩
      simp [List.length_take]
      omega

/-- C8, the amended statement at one failure followed by a success: two calls, the second
with the one failed record. -/
theorem sendMsg_retry_budget_witness :
    ([[{ Msg := m27, Err := "down" }]] : List (List ProducerError)).length ≤ 21 ∧
      (sendMsg replayRuntime [m27, m300]
          { answers := [[{ Msg := m27, Err := "down" }]].map some ++ none :: [], times := [],
            calls := [] }).2.calls = [] ++ [m27, m300] :: [[m27]] :=
  ⟨by decide, ((sendMsg_retry_budget [m27, m300] [[{ Msg := m27, Err := "down" }]] [] [] []).1
    (by decide)).2.1⟩

/-! ## C9: a failure of `json.Marshal` -/

/-- C9, counterexample. `json.Marshal` fails and returns no bytes; with no secret and
threshold 54, `processGenericEvent` and `processSQLEvent` return a record with an empty
value and no error, and the consumer puts that record on the resend channel. -/
theorem marshal_failure_is_forwarded :
    (failingCodec.MarshalGeneric genericEv).2 = some "json: unsupported value" ∧
      (failingCodec.MarshalSql sqlEv).2 = some "json: unsupported value" ∧
      processGenericEvent failingCodec () genericEv confTopicless 54 =
        Except.ok { Topic := "p_prod", Key := some (ByteEncoder (goBytes "prod")),
                    Value := some (StringEncoder []), Headers := [] } ∧
      startConsumer failingCodec () confTopicless 54 (Payload.generic genericEv) =
        some { Topic := "p_prod", Key := some (ByteEncoder (goBytes "prod")),
               Value := some (StringEncoder []), Headers := [] } ∧
      processSQLEvent failingCodec () sqlEv confTopicless 54 =
        Except.ok { Topic := "p_prod_db", Key := some (StringEncoder (goBytes "1")),
                    Value := some (StringEncoder []), Headers := [] } ∧
      startConsumer failingCodec () confTopicless 54 (Payload.sql sqlEv) =
        some { Topic := "p_prod_db", Key := some (StringEncoder (goBytes "1")),
               Value := some (StringEncoder []), Headers := [] } := by
  refine ⟨rfl, rfl, ?_, ?_, ?_, ?_⟩
  · rfl
  · rfl
  · rfl
  · rfl

/-- C9, amended. When `json.Marshal` fails, `processSQLEvent` and `processGenericEvent` only
log the failure and go on with the bytes the call returned: they return an error and no
record exactly when the length of the value encoded from those bytes is strictly greater
than the threshold, and otherwise return a record, which the consumer puts on the resend
channel. -/
theorem marshal_failure_only_logged {R : Type} (c : Codec R) (r : R) (conf : kafkaSinkConfig)
    (threshold : Int) (sqlEvent : SqlEvent) (genericMsg : GenericEvent) :
    ((c.MarshalSql sqlEvent).2 ≠ none →
      SizeGate (processSQLEvent c r sqlEvent conf threshold)
        (startConsumer c r conf threshold (Payload.sql sqlEvent))
        (encodedValue conf.Secret (c.MarshalSql sqlEvent).1 (c.EncryptString r)) threshold) ∧
    ((c.MarshalGeneric genericMsg).2 ≠ none →
      SizeGate (processGenericEvent c r genericMsg conf threshold)
        (startConsumer c r conf threshold (Payload.generic genericMsg))
        (encodedValue conf.Secret (c.MarshalGeneric genericMsg).1 (c.EncryptBytes r))
        threshold) :=
  ⟨fun _ => sizeGate_of_gate _ _ _ _ _ _ (processSQLEvent_eq c r sqlEvent conf threshold),
    fun _ => sizeGate_of_gate _ _ _ _ _ _ (processGenericEvent_eq c r genericMsg conf threshold)⟩

/-- C9, the amended statement at a generic event whose serialization fails. -/
theorem marshal_failure_only_logged_witness :
    (failingCodec.MarshalGeneric genericEv).2 ≠ none ∧
      SizeGate (processGenericEvent failingCodec () genericEv confTopicless 54)
        (startConsumer failingCodec () confTopicless 54 (Payload.generic genericEv))
        (encodedValue confTopicless.Secret (failingCodec.MarshalGeneric genericEv).1
          (failingCodec.EncryptBytes ())) 54 :=
  ⟨by decide,
    (marshal_failure_only_logged failingCodec () confTopicless 54 sqlEv genericEv).2
      (by decide)⟩

/-! ## C10: restarting a source -/

/-- C10. For every Source control message whose payload decodes with action Restart and whose
name is that of a registered source, `DispatchSource` invokes on that source `Stop` and
then `Start`, once each, in that order and nothing else, `Start` running on the source as
`Stop` left it whatever `Stop` returned; when the name is not that of a registered source
the agent is left as it was, so no operation of any source is invoked. -/
theorem restart_is_stop_then_start {σ D : Type} (k : ControlConsts) (impl : SourceI σ D)
    (unmarshal : List UInt8 → Except String ControlSource) (a : Agent σ D)
    (payload : RpcMessage) (sourceName : String) :
    (∀ s srcCtrl, getSource a sourceName = some s →
        unmarshal payload.Payload = Except.ok srcCtrl → srcCtrl.Action = k.SourceRestart →
        (DispatchSource k impl unmarshal a payload sourceName).invoked =
          a.invoked ++
            [{ name := sourceName, op := SourceOp.Stop, err := (impl.Stop s).2 },
             { name := sourceName, op := SourceOp.Start,
               err := (impl.Start (impl.Stop s).1).2 }] ∧
        getSource (DispatchSource k impl unmarshal a payload sourceName) sourceName =
          some (impl.Start (impl.Stop s).1).1) ∧
      (getSource a sourceName = none →
        DispatchSource k impl unmarshal a payload sourceName = a) := by
  have hd := k.distinct
  simp only [List.nodup_cons, List.mem_cons, List.mem_singleton, List.not_mem_nil,
    not_or] at hd
  constructor
  · intro s srcCtrl hreg hdec hact
    have h1 : k.SourceRestart ≠ k.SourceStart := fun h => hd.1.2.1 h.symm
    have h2 : k.SourceRestart ≠ k.SourceStop := fun h => hd.2.1.1 h.symm
    simp only [getSource] at hreg
    simp [DispatchSource, hreg, hdec, hact, h1, h2, Agent.called, getSource]
  · intro hreg
    simp only [getSource] at hreg
    simp [DispatchSource, getSource, hreg]

/-- C10 at a source whose `Stop` returns an error: `Start` is invoked all the same. -/
theorem restart_is_stop_then_start_witness :
    (DispatchSource consts stubbornSource decodeRestart agentS1
        { MsgType := "Source", Payload := [] } "s1").invoked =
      agentS1.invoked ++
        [{ name := "s1", op := SourceOp.Stop, err := some "cannot stop" },
         { name := "s1", op := SourceOp.Start, err := none }] :=
  ((restart_is_stop_then_start consts stubbornSource decodeRestart agentS1
    { MsgType := "Source", Payload := [] } "s1").1 0 _ rfl rfl rfl).1

/-! ## C11: the agent uuid after `initializeConfig` -/

theorem overrideFromEnv_uuid_of_ne {V U R : Type} (lib : ConfigLib V U R) (m : AgentMap U)
    (name key : String) (hkey : "uuid" ≠ key) :
    overrideFromEnv lib m name key "uuid" = m "uuid" := by
  unfold overrideFromEnv
  split_ifs
  · simp [AgentMap.set, hkey]
  · rfl

theorem overrideFromEnv_uuid {V U R : Type} (lib : ConfigLib V U R) (m : AgentMap U) :
    overrideFromEnv lib m "UUID" "uuid" "uuid" =
      if lib.Getenv "UUID" ≠ "" then some (ConfigValue.str (lib.Getenv "UUID"))
      else m "uuid" := by
  unfold overrideFromEnv
  split_ifs <;> simp [AgentMap.set]

theorem envOverrides_uuid {V U R : Type} (lib : ConfigLib V U R) (v : V) (hostname : String) :
    ((envOverrides lib v).set "hostname" (ConfigValue.str hostname)) "uuid"
      = candidateUuid lib v := by
  have h1 : "uuid" ≠ "hostname" := by decide
  have h2 : "uuid" ≠ "secretkey" := by decide
  have h3 : "uuid" ≠ "env" := by decide
  have h4 : "uuid" ≠ "tenant" := by decide
  have hset : ∀ m : AgentMap U,
      (m.set "hostname" (ConfigValue.str hostname)) "uuid" = m "uuid" := by
    intro m
    simp [AgentMap.set, h1]
  unfold envOverrides
  simp only
  rw [hset, overrideFromEnv_uuid_of_ne lib _ "SECRETKEY" "secretkey" h2,
    overrideFromEnv_uuid_of_ne lib _ "ENV" "env" h3, overrideFromEnv_uuid,
    overrideFromEnv_uuid_of_ne lib _ "TENANT" "tenant" h4]
  rfl

theorem assignUuid_kept {V U R : Type} (lib : ConfigLib V U R) (v : V) (m : AgentMap U)
    (s : String) (hs : m "uuid" = some (ConfigValue.str s)) (hvalid : lib.FromString s ≠ none)
    (r : R) : assignUuid lib v m r = InitOutcome.ok (lib.written v "agent" m) := by
  unfold assignUuid
  simp only [hs]
  cases h : lib.FromString s with
  | none => exact absurd h hvalid
  | some u => rfl

theorem assignUuid_generated {V U R : Type} (lib : ConfigLib V U R) (v : V) (m : AgentMap U)
    (h : m "uuid" = none ∨ ∃ s, m "uuid" = some (ConfigValue.str s) ∧ lib.FromString s = none)
    (r : R) :
    assignUuid lib v m r =
      InitOutcome.ok
        (lib.Set (lib.written v "agent" (m.set "uuid" (ConfigValue.uuid (lib.NewV4 r)))) "agent"
          (m.set "uuid" (ConfigValue.uuid (lib.NewV4 r)))) := by
  unfold assignUuid
  rcases h with h | ⟨s, hs, hnone⟩
  · simp only [h]
  · simp only [hs, hnone]

/-- The two ways `initializeConfig` succeeds, for every library and system: with no error
other than a parse error from `ReadInConfig` and a host name, a candidate uuid that parses
makes it return the configuration with no call of `v.Set`, whatever `uuid.NewV4` would
draw; a candidate that is absent or does not parse makes it return the result of
`v.Set("agent", m)` for the map `m` that holds the generated UUID. -/
theorem initializeConfig_paths {V U R : Type} (lib : ConfigLib V U R)
    (cfgFile cfgPath hostname : String) (r : R)
    (hread : ∀ text, (lib.ReadInConfig (configSource cfgFile cfgPath)).2
      ≠ some (ReadError.other text))
    (hhost : lib.Hostname = Except.ok hostname) :
    (∀ s, candidateUuid lib (configRead lib cfgFile cfgPath) = some (ConfigValue.str s) →
        lib.FromString s ≠ none →
        initializeConfig lib cfgFile cfgPath r =
          InitOutcome.ok (lib.written (configRead lib cfgFile cfgPath) "agent"
            ((envOverrides lib (configRead lib cfgFile cfgPath)).set "hostname"
              (ConfigValue.str hostname)))) ∧
      ((candidateUuid lib (configRead lib cfgFile cfgPath) = none ∨
          ∃ s, candidateUuid lib (configRead lib cfgFile cfgPath) = some (ConfigValue.str s) ∧
            lib.FromString s = none) →
        initializeConfig lib cfgFile cfgPath r =
          InitOutcome.ok
            (lib.Set
              (lib.written (configRead lib cfgFile cfgPath) "agent"
                (((envOverrides lib (configRead lib cfgFile cfgPath)).set "hostname"
                  (ConfigValue.str hostname)).set "uuid" (ConfigValue.uuid (lib.NewV4 r))))
              "agent"
              (((envOverrides lib (configRead lib cfgFile cfgPath)).set "hostname"
                (ConfigValue.str hostname)).set "uuid" (ConfigValue.uuid (lib.NewV4 r))))) := by
  have hform : initializeConfig lib cfgFile cfgPath r =
      assignUuid lib (configRead lib cfgFile cfgPath)
        ((envOverrides lib (configRead lib cfgFile cfgPath)).set "hostname"
          (ConfigValue.str hostname)) r := by
    rcases hR : (lib.ReadInConfig (configSource cfgFile cfgPath)).2 with _ | e
    · simp [initializeConfig, hR, hhost, configRead]
    · cases e with
      | ConfigParseError text => simp [initializeConfig, hR, hhost, configRead]
      | other text => exact absurd hR (hread text)
  have hc := envOverrides_uuid lib (configRead lib cfgFile cfgPath) hostname
  constructor
  · intro s hs hvalid
    rw [← hc] at hs
    rw [hform]
    exact assignUuid_kept lib _ _ s hs hvalid r
  · intro h
    rw [← hc] at h
    rw [hform]
    exact assignUuid_generated lib _ _ h r

/-- C11, the code at the failing input. The environment sets `UUID` to a UUID that
`uuid.FromString` parses and the configuration file has no section `agent`: the candidate
uuid is that valid UUID, `initializeConfig` succeeds through its early return, before
`v.Set("agent", m)`, and the configuration it returns has no agent uuid at all, so the
candidate was not kept. On the same file with `UUID` unset the other path is taken, which
does call `v.Set`: the returned configuration holds the generated UUID. -/
theorem initializeConfig_early_return_loses_uuid :
    candidateUuid (viperLib envWithUuid none) (configRead (viperLib envWithUuid none) "" "")
        = some (ConfigValue.str sampleUuidText) ∧
      (viperLib envWithUuid none).FromString sampleUuidText = some 1 ∧
      initializeConfig (viperLib envWithUuid none) "" "" 7 = InitOutcome.ok none ∧
      agentUuid (viperLib envWithUuid none) none = none ∧
      initializeConfig (viperLib noEnv none) "" "" 7 =
        InitOutcome.ok
          (some ((agentEmpty.set "hostname" (ConfigValue.str "host1")).set "uuid"
            (ConfigValue.uuid 7))) ∧
      agentUuid (viperLib noEnv none)
          (some ((agentEmpty.set "hostname" (ConfigValue.str "host1")).set "uuid"
            (ConfigValue.uuid 7)))
        = some (ConfigValue.uuid 7) :=
  ⟨by decide, by decide, rfl, rfl, rfl, by decide⟩

/-! ## C12: the message with an empty value -/

theorem callSendMsg_valueInv {W : Type} (rt : Runtime W) (f : Fiber W)
    (ms : List ProducerMessage) (sz : Int) (hf : ValueInv f) (hms : ∀ r ∈ ms, hasValue r) :
    ValueInv (callSendMsg rt f ms sz) := by
  have hsent : ∀ batch ∈ f.sent ++ [f.msgs], ∀ r ∈ batch, hasValue r := by
    intro batch hb
    rcases List.mem_append.mp hb with h | h
    · exact hf.2 batch h
    · rw [List.mem_singleton] at h
      subst h
      exact hf.1
  obtain ⟨w, ⟨t, -, h⟩ | ⟨-, h⟩⟩ := callSendMsg_cases rt f ms sz
  · rw [h]; exact ⟨hms, hsent⟩
  · rw [h]; exact ⟨hf.1, hsent⟩

theorem onMessage_valueInv {W : Type} (rt : Runtime W) (conf : kafkaSinkConfig) (f : Fiber W)
    (msg : ProducerMessage) (hf : ValueInv f) : ValueInv (onMessage rt conf f msg) := by
  have hnil : ∀ r ∈ ([] : List ProducerMessage), hasValue r := by simp
  unfold onMessage
  split
  · exact hf
  · rename_i value hvalue
    split_ifs with h1 h2
    · exact callSendMsg_valueInv rt f [] 0 hf hnil
    · exact hf
    · have hmsg : hasValue msg := ⟨value, hvalue, h1⟩
      have hsize : ValueInv (sizeCheck rt conf f msg) := by
        unfold sizeCheck
        simp only
        split_ifs
        · exact hf
        · refine ⟨?_, hf.2⟩
          intro r hr
          rcases List.mem_append.mp hr with h | h
          · exact hf.1 r h
          · rw [List.mem_singleton] at h; subst h; exact hmsg
        · refine callSendMsg_valueInv rt f [msg] _ hf ?_
          intro r hr
          rw [List.mem_singleton] at hr; subst hr; exact hmsg
      unfold tickCheck
      split
      · simp only
        split_ifs
        · have hf2 : ValueInv { sizeCheck rt conf f msg with
              world := (rt.unixNow (sizeCheck rt conf f msg).world).2 } := hsize
          exact callSendMsg_valueInv rt _ [] 0 hf2 hnil
        · exact hsize
      · exact hsize

theorem producerLoop_valueInv {W : Type} (rt : Runtime W) (conf : kafkaSinkConfig)
    (signals : List Signal) :
    ∀ f : Fiber W, ValueInv f → ValueInv (producerLoop rt conf f signals) := by
  induction signals with
  | nil => intro f hf; exact hf
  | cons s rest ih =>
    intro f hf
    refine ih _ ?_
    unfold loopStep
    split
    · cases s with
      | recv msg => exact onMessage_valueInv rt conf f msg hf
      | stop => exact hf
    · exact hf

theorem startProducer_valueInv {W : Type} (rt : Runtime W) (conf : kafkaSinkConfig) (w : W)
    (signals : List Signal) : ValueInv (startProducer rt conf w signals) :=
  producerLoop_valueInv rt conf signals _ ⟨by simp [initFiber], by simp [initFiber]⟩

/-- C12. On a message whose value has length zero the producer loop, when the pending batch
is non-empty, hands that batch to `sendMsg` and, when the call returns, resets the batch to
empty with byte total 0; when the pending batch is empty it changes nothing and calls
nothing. In every run the message is in no batch handed to `sendMsg` and not in the pending
batch. In particular a pass-through message with an empty value, under no secret and a
threshold of at least 0, is forwarded by the consumer as a record with an empty value, and
that record is in no batch handed to `sendMsg`. -/
theorem empty_value_flushes_and_is_dropped {W : Type} (rt : Runtime W) (conf : kafkaSinkConfig)
    (f : Fiber W) (msg : ProducerMessage) (v : Encoder)
    (hv : msg.Value = some v) (hlen : v.Length = 0) :
    (f.msgs ≠ [] →
      (onMessage rt conf f msg).sent = f.sent ++ [f.msgs] ∧
        (onMessage rt conf f msg).world = (sendMsg rt f.msgs f.world).2 ∧
        ∀ t, (sendMsg rt f.msgs f.world).1 = SendOutcome.returned t →
          (onMessage rt conf f msg).msgs = [] ∧ (onMessage rt conf f msg).msgsSize = 0 ∧
            (onMessage rt conf f msg).lastSend = t) ∧
      (f.msgs = [] → onMessage rt conf f msg = f) ∧
      (∀ (w : W) (signals : List Signal),
        msg ∉ (startProducer rt conf w signals).msgs ∧
          ∀ batch ∈ (startProducer rt conf w signals).sent, msg ∉ batch) ∧
      (∀ {R : Type} (c : Codec R) (r : R) (kafkaMsg : ConsumerMessage) (threshold : Int),
        kafkaMsg.Value = [] → conf.Secret = "" → 0 ≤ threshold →
        ∃ record, startConsumer c r conf threshold (Payload.kafka kafkaMsg) = some record ∧
          record.Value = some (StringEncoder []) ∧
          ∀ (w : W) (signals : List Signal),
            ∀ batch ∈ (startProducer rt conf w signals).sent, record ∉ batch) := by
  have hnot : ∀ record : ProducerMessage, ∀ e : Encoder, record.Value = some e → e.Length = 0 →
      ¬ hasValue record := by
    intro record e he hzero ⟨e2, he2, hne⟩
    rw [he] at he2
    cases he2
    exact hne hzero
  refine ⟨?_, ?_, ?_, ?_⟩
  · intro hne
    have hlen1 : f.msgs.length ≥ 1 := by
      cases hm : f.msgs with
      | nil => exact absurd hm hne
      | cons a l => simp
    have hs : onMessage rt conf f msg = callSendMsg rt f [] 0 := by
      unfold onMessage
      rw [hv]
      simp only [hlen, hlen1, if_true]
    rw [hs]
    unfold callSendMsg
    rcases hr : sendMsg rt f.msgs f.world with ⟨o, w⟩
    cases o with
    | returned t1 =>
      refine ⟨rfl, rfl, ?_⟩
      intro t ht
      cases ht
      exact ⟨rfl, rfl, rfl⟩
    | panic n =>
      refine ⟨rfl, rfl, ?_⟩
      intro t ht
      cases ht
  · intro hnil
    unfold onMessage
    rw [hv]
    simp [hlen, hnil]
  · intro w signals
    have hinv := startProducer_valueInv rt conf w signals
    exact ⟨fun hmem => hnot msg v hv hlen (hinv.1 msg hmem),
      fun batch hb hmem => hnot msg v hv hlen (hinv.2 batch hb msg hmem)⟩
  · intro R c r kafkaMsg threshold hval hsecret hthr
    have hrec : processKafkaMsg c r kafkaMsg conf threshold =
        Except.ok { Topic := derivedTopic conf kafkaMsg.Topic,
                    Key := some (ByteEncoder kafkaMsg.Key),
                    Value := some (StringEncoder []), Headers := [] } := by
      rw [processKafkaMsg_eq]
      simp [encodedValue, hsecret, hval, not_lt.mpr hthr]
    refine ⟨{ Topic := derivedTopic conf kafkaMsg.Topic, Key := some (ByteEncoder kafkaMsg.Key),
              Value := some (StringEncoder []), Headers := [] },
      by simp only [startConsumer, hrec, forward], rfl, ?_⟩
    intro w signals batch hb hmem
    exact hnot _ (StringEncoder []) rfl (by decide)
      ((startProducer_valueInv rt conf w signals).2 batch hb _ hmem)

/-- C12 at the record the consumer makes of a pass-through message with an empty value:
it flushes the pending batch `[m27]` and is itself in no batch. -/
theorem empty_value_flushes_and_is_dropped_witness :
    emptyRecord.Value = some (StringEncoder []) ∧ (StringEncoder []).Length = 0 ∧
      startConsumer plainCodec () confTopicless 54 (Payload.kafka kafkaEmpty) = some emptyRecord ∧
      (pending27.msgs ≠ [] →
        (onMessage replayRuntime confTopicless pending27 emptyRecord).sent
          = pending27.sent ++ [pending27.msgs]) ∧
      emptyRecord ∉ (startProducer steadyRuntime conf54 []
        [Signal.recv m27, Signal.recv emptyRecord, Signal.recv emptyRecord, Signal.stop]).msgs :=
  ⟨rfl, by decide, by rfl,
    fun h => ((empty_value_flushes_and_is_dropped replayRuntime confTopicless pending27
      emptyRecord (StringEncoder []) rfl (by decide)).1 h).1,
    ((empty_value_flushes_and_is_dropped steadyRuntime conf54 (initFiber steadyRuntime []) emptyRecord
      (StringEncoder []) rfl (by decide)).2.2.1 [] _).1⟩

end Lookatch
